import Mathlib

/-
  Verification development for the JMattingly1845 commerce ingestion core.

  The TypeScript sources are shallowly embedded: money amounts are exact
  rationals, wall-clock instants and dates are integers, raw JSON payloads
  are association lists, and external primitives (the SHA-256 digest, the
  HMAC, the network fetchers) are explicit function or `Except` parameters.
  Database tables are Lean lists and the Prisma row operations
  (upsert / update-by-unique-id / deleteMany / createMany) are the
  corresponding list transformations.
-/

namespace JM

/-- JSON scalar values appearing in raw payloads and audit rows. -/
inductive JVal where
  | str : String → JVal
  | int : Int → JVal
  | num : ℚ → JVal
  | bool : Bool → JVal
deriving DecidableEq

/-- A JSON object, as an association list of key/value pairs. -/
abbrev Json := List (String × JVal)

/-- Keys of a JSON object. -/
def jsonKeys (j : Json) : List String := j.map Prod.fst

/-- Set one key of a JSON object, overriding an existing binding in place
(the semantics of a later key in a JavaScript object spread). -/
def jsonSet (j : Json) (k : String) (v : JVal) : Json :=
  if j.any (fun p => p.1 = k) then
    j.map (fun p => if p.1 = k then (k, v) else p)
  else
    j ++ [(k, v)]

/-- The object spread `\x7b...old, ...updates\x7d`: every binding of `updates`
is written over `old`, never removing a key of `old`. -/
def jsonMerge (old : Json) (updates : Json) : Json :=
  updates.foldl (fun acc p => jsonSet acc p.1 p.2) old

/-- JavaScript truthiness of a nullable string: null/undefined and the empty
string are falsy. -/
def strTruthy (s : Option String) : Bool :=
  match s with
  | none => false
  | some v => v ≠ ""

/-- `String.prototype.toLowerCase`, on the character list. -/
def jsToLower (s : String) : String := ⟨s.data.map Char.toLower⟩

/-- `String.prototype.toUpperCase`, on the character list. -/
def jsToUpper (s : String) : String := ⟨s.data.map Char.toUpper⟩

/-- The whitespace characters stripped by `String.prototype.trim`. -/
def jsWs (c : Char) : Bool := c = ' ' ∨ c = '\t' ∨ c = '\n' ∨ c = '\r'

/-- `String.prototype.trim`: strip whitespace from both ends. -/
def jsTrim (s : String) : String :=
  ⟨((s.data.dropWhile jsWs).reverse.dropWhile jsWs).reverse⟩

/-- `String.prototype.substring(0, n)`. -/
def jsTake (s : String) (n : Nat) : String := ⟨s.data.take n⟩

/-- `String.prototype.split(sep)` for a one-character separator, keeping
empty segments as JavaScript does. -/
def jsSplitChar (sep : Char) (s : String) : List String :=
  (s.data.foldr
    (fun ch acc =>
      if ch = sep then [] :: acc
      else
        match acc with
        | h :: t => (ch :: h) :: t
        | [] => [[ch]]) [[]]).map (fun l => String.mk l)

/-- Whether `pat` is a prefix of `l`, on character lists. -/
def charsPrefix : List Char → List Char → Bool
  | [], _ => true
  | _ :: _, [] => false
  | p :: ps, c :: cs => p = c && charsPrefix ps cs

/-- Whether `pat` occurs as a contiguous run inside `l`, on character
lists. -/
def charsInfix (pat : List Char) : List Char → Bool
  | [] => charsPrefix pat []
  | c :: cs => charsPrefix pat (c :: cs) || charsInfix pat cs

/-- Whether `pat` occurs as a contiguous run inside `s`
(`String.prototype.includes`). -/
def jsIncludes (s pat : String) : Bool :=
  charsInfix pat.data s.data

end JM

-- ========================================
-- lib/shopify.ts — types
-- ========================================

namespace JM.Shopify

/-- `customer` object of a Shopify GraphQL order. -/
structure ShopifyCustomer where
  id : String
  email : Option String
  phone : Option String
deriving DecidableEq

/-- `product` sub-object of a Shopify line item. -/
structure ShopifyProduct where
  id : String
  productType : Option String
deriving DecidableEq

/-- One Shopify GraphQL line item node; `originalTotal` carries the decimal
string `originalTotalSet.shopMoney.amount` as an exact rational. -/
structure ShopifyLineItem where
  id : String
  name : String
  sku : Option String
  quantity : Nat
  originalTotal : ℚ
  product : Option ShopifyProduct
deriving DecidableEq

/-- One Shopify transaction node. -/
structure ShopifyTransaction where
  kind : String
  status : String
  amount : ℚ
  gateway : String
deriving DecidableEq

/-- A Shopify GraphQL order.  The `...Set.shopMoney.amount` decimal strings
are carried as the exact rationals they denote; timestamps are integers. -/
structure ShopifyOrder where
  id : String
  name : String
  createdAt : Int
  updatedAt : Int
  totalPrice : ℚ
  currentSubtotalPrice : ℚ
  totalDiscounts : ℚ
  totalTax : ℚ
  totalRefunded : ℚ
  customer : Option ShopifyCustomer
  lineItems : List ShopifyLineItem
  transactions : List ShopifyTransaction
deriving DecidableEq

/-- Normalized line item emitted by `normalizeOrder`. -/
structure NormalizedLineItem where
  externalId : String
  sku : Option String
  productTitle : String
  category : Option String
  qty : Nat
  lineTotal : ℚ
deriving DecidableEq

/-- One entry of the `tenders` list extracted from transactions. -/
structure Tender where
  gateway : String
  amount : ℚ
deriving DecidableEq

/-- Customer identity info attached to a normalized order for the bridge
table (`shopifyCustomerId` for Shopify, the Square/AnyRoad ids elsewhere). -/
structure CustomerIdentityInfo where
  shopifyCustomerId : Option String
  squareCustomerId : Option String
  anyroadGuestId : Option String
deriving DecidableEq

/-- The canonical normalized order shape shared by the Shopify and Square
adapters (`NormalizedOrder` / `NormalizedSquareOrder` in the sources). -/
structure NormalizedOrder where
  externalId : String
  channelId : String
  locationId : Option String
  createdAt : Int
  updatedAt : Int
  customerHash : Option String
  grossTotal : ℚ
  netTotal : ℚ
  taxTotal : ℚ
  discountTotal : ℚ
  refundsTotal : ℚ
  tendersJson : List Tender
  rawJson : JM.Json
  lineItems : List NormalizedLineItem
  customerIdentity : Option CustomerIdentityInfo
deriving DecidableEq

end JM.Shopify

-- ========================================
-- lib/shopify.ts — data normalization
-- ========================================

namespace JM.Shopify

open JM

/-- `hashPii` from `lib/shopify.ts`.  The external primitive
`crypto.createHash('sha256')....digest('hex')` is abstracted as the
parameter `sha256hex` mapping the hashed string to its hex digest; note the
primitive takes no key.  Null/undefined and the empty string are falsy, so
they return null; otherwise the value is lowercased, trimmed, digested and
truncated to the first 32 characters. -/
def hashPii (sha256hex : String → String) (value : Option String) : Option String :=
  match value with
  | none => none
  | some v =>
    if v = "" then none
    else some (jsTake (sha256hex (jsTrim (jsToLower v))) 32)

/-- `generateCustomerHash` from `lib/shopify.ts`: prefer email, fall back to
phone, else null. -/
def generateCustomerHash (sha256hex : String → String)
    (email phone : Option String) : Option String :=
  if strTruthy email then hashPii sha256hex email
  else if strTruthy phone then hashPii sha256hex phone
  else none

/-- `extractShopifyId` from `lib/shopify.ts`:
`gid://shopify/Order/123456 -> shopify_order_123456`. -/
def extractShopifyId (gid : String) : String :=
  let parts := jsSplitChar '/' gid
  let ty :=
    match parts.get? 3 with
    | some t => if jsToLower t = "" then "unknown" else jsToLower t
    | none => "unknown"
  let nid :=
    match parts.get? 4 with
    | some i => if i = "" then gid else i
    | none => gid
  "shopify_" ++ ty ++ "_" ++ nid

/-- Encoding of the source order kept as the `rawJson` column (the code
stores the raw payload object itself). -/
def encodeShopifyOrder (o : ShopifyOrder) : Json :=
  [("id", .str o.id), ("name", .str o.name),
   ("createdAt", .int o.createdAt), ("updatedAt", .int o.updatedAt),
   ("totalPrice", .num o.totalPrice),
   ("currentSubtotalPrice", .num o.currentSubtotalPrice),
   ("totalDiscounts", .num o.totalDiscounts),
   ("totalTax", .num o.totalTax),
   ("totalRefunded", .num o.totalRefunded)]

/-- `normalizeOrder` from `lib/shopify.ts`: converts a Shopify GraphQL order
to the dimensional model.  `parseFloat` of the decimal amount strings is the
identity on the rationals they denote; `netTotal` is computed as
`grossTotal - refundsTotal`. -/
def normalizeOrder (sha256hex : String → String) (order : ShopifyOrder) :
    NormalizedOrder :=
  let grossTotal := order.totalPrice
  let discountTotal := order.totalDiscounts
  let taxTotal := order.totalTax
  let refundsTotal := order.totalRefunded
  let netTotal := grossTotal - refundsTotal
  let customerHash :=
    match order.customer with
    | some c => generateCustomerHash sha256hex c.email c.phone
    | none => none
  let tenders :=
    (order.transactions.filter
      (fun t => t.kind = "SALE" ∧ t.status = "SUCCESS")).map
      (fun t => Tender.mk t.gateway t.amount)
  let lineItems := order.lineItems.map (fun item =>
    { externalId := extractShopifyId item.id
      sku := item.sku
      productTitle := item.name
      category :=
        match item.product with
        | some p =>
          match p.productType with
          | some ty => if ty = "" then none else some ty
          | none => none
        | none => none
      qty := item.quantity
      lineTotal := item.originalTotal })
  { externalId := extractShopifyId order.id
    channelId := "shopify"
    locationId := some "online-shopify"
    createdAt := order.createdAt
    updatedAt := order.updatedAt
    customerHash := customerHash
    grossTotal := grossTotal
    netTotal := netTotal
    taxTotal := taxTotal
    discountTotal := discountTotal
    refundsTotal := refundsTotal
    tendersJson := tenders
    rawJson := encodeShopifyOrder order
    lineItems := lineItems
    customerIdentity :=
      match order.customer with
      | some c => some ⟨some (extractShopifyId c.id), none, none⟩
      | none => none }

/-- `normalizeOrders` from `lib/shopify.ts`. -/
def normalizeOrders (sha256hex : String → String) (orders : List ShopifyOrder) :
    List NormalizedOrder :=
  orders.map (normalizeOrder sha256hex)

/-- `verifyWebhookHmac` from `lib/shopify.ts`: false when the webhook secret
is unset, otherwise a timing-safe comparison of the base64 HMAC-SHA256 of
the raw body against the header (the `timingSafeEqual` try/catch nets out to
string equality).  `hmacB64` abstracts `crypto.createHmac(secret)...`. -/
def verifyWebhookHmac (hmacB64 : String → String → String)
    (secretEnv : Option String) (body hmacHeader : String) : Bool :=
  match secretEnv with
  | none => false
  | some secret =>
    if secret = "" then false
    else hmacB64 secret body = hmacHeader

end JM.Shopify

-- ========================================
-- lib/security.ts — the keyed hashPii variant
-- ========================================

namespace JM.Security

open JM

/-- `hashPii` from the security module: same normalization, but a keyed
HMAC-SHA256 with `PII_HASH_SECRET`, truncated to 16 characters.  `hmacHex`
abstracts `crypto.createHmac(secret)...digest('hex')`. -/
def hashPii (hmacHex : String → String → String) (piiHashSecret : String)
    (value : Option String) : Option String :=
  match value with
  | none => none
  | some v =>
    if v = "" then none
    else some (jsTake (hmacHex piiHashSecret (jsTrim (jsToLower v))) 16)

end JM.Security

-- ========================================
-- Warehouse state (the Prisma tables)
-- ========================================

namespace JM

open JM.Shopify

/-- One `FactOrder` row. -/
structure OrderRow where
  id : String
  channelId : String
  locationId : Option String
  createdAt : Int
  updatedAt : Int
  customerHash : Option String
  grossTotal : ℚ
  netTotal : ℚ
  taxTotal : ℚ
  discountTotal : ℚ
  refundsTotal : ℚ
  tendersJson : List Tender
  rawJson : Json
deriving DecidableEq

/-- One `FactOrderLine` row. -/
structure LineRow where
  id : String
  orderId : String
  sku : Option String
  productTitle : String
  category : Option String
  qty : Nat
  lineTotal : ℚ
deriving DecidableEq

/-- One `BridgeCustomerIdentity` row. -/
structure IdentityRow where
  customerHash : String
  shopifyCustomerId : Option String
  squareCustomerId : Option String
  anyroadGuestId : Option String
  updatedAt : Int
deriving DecidableEq

/-- One `FactEvent` row. -/
structure EventRow where
  id : String
  eventType : String
  startsAt : Int
  endsAt : Option Int
  attendees : Nat
  revenue : ℚ
  addOnSales : ℚ
  rawJson : Json
deriving DecidableEq

/-- A backfill checkpoint, as persisted in an `IngestAudit` payload. -/
structure Checkpoint where
  startDate : Int
  endDate : Int
  cursor : Option Nat
  processedCount : Nat
deriving DecidableEq

/-- The structured payload column of an `IngestAudit` row. -/
inductive AuditPayload where
  | cp : Checkpoint → AuditPayload
  | info : Json → AuditPayload
  | resyncInfo : Int → Option Nat → AuditPayload
deriving DecidableEq

/-- One `IngestAudit` row; `rid` models the generated row id used by the
webhook handlers to update the row to its terminal status. -/
structure AuditRow where
  rid : Nat
  source : String
  auditType : String
  status : String
  error : Option String
  payload : AuditPayload
deriving DecidableEq

/-- One `DimLocation` row. -/
structure LocationRow where
  id : String
  name : String
  channel : String
deriving DecidableEq

/-- The warehouse: all Prisma tables touched by the ingestion core.
`audits` is append-only, so a row's position never changes and `rid`
assigned at creation time stays unique. -/
structure Warehouse where
  orders : List OrderRow
  lines : List LineRow
  identities : List IdentityRow
  events : List EventRow
  audits : List AuditRow
  dimLocations : List LocationRow
deriving DecidableEq

/-- The empty warehouse. -/
def emptyWarehouse : Warehouse := ⟨[], [], [], [], [], []⟩

/-- Prisma `update` with a `where` clause on a unique key: rewrite the (one)
matching row, found first in list order. -/
def updateByKey {α : Type} (key : α → String) (k : String) (f : α → α) :
    List α → List α
  | [] => []
  | r :: rs => if key r = k then f r :: rs else r :: updateByKey key k f rs

/-- Prisma `upsert` on a unique key: update the matching row if present,
otherwise append the freshly created row. -/
def upsertByKey {α : Type} (key : α → String) (k : String) (f : α → α)
    (created : α) (l : List α) : List α :=
  if l.any (fun r => key r = k) then updateByKey key k f l else l ++ [created]

/-- Prisma `create` on `IngestAudit`: append a row with a fresh generated id. -/
def auditCreate (s : Warehouse) (source auditType status : String)
    (payload : AuditPayload) : Warehouse × Nat :=
  let rid := s.audits.length
  ({ s with audits := s.audits ++ [⟨rid, source, auditType, status, none, payload⟩] }, rid)

/-- Prisma `update` on `IngestAudit` by row id. -/
def auditUpdate (s : Warehouse) (rid : Nat) (f : AuditRow → AuditRow) : Warehouse :=
  { s with audits := s.audits.map (fun r => if r.rid = rid then f r else r) }

end JM

-- ========================================
-- scripts/shopify-backfill.ts — persistence
-- ========================================

namespace JM.Backfill

open JM JM.Shopify

/-- The `bridgeCustomerIdentity.upsert` performed by `upsertOrder` (and by
the resync/webhook paths) when the normalized order carries both a customer
identity and a (truthy) customer hash, on the identity rows; `now` models
`new Date()`. -/
def upsertShopifyIdentityRows (order : NormalizedOrder) (now : Int)
    (l : List IdentityRow) : List IdentityRow :=
  match order.customerIdentity with
  | none => l
  | some ci =>
    match order.customerHash with
    | none => l
    | some ch =>
      if ch = "" then l
      else
        upsertByKey IdentityRow.customerHash ch
          (fun r => { r with shopifyCustomerId := ci.shopifyCustomerId,
                             updatedAt := now })
          ⟨ch, ci.shopifyCustomerId, none, none, now⟩ l

/-- The same upsert lifted to the warehouse. -/
def upsertShopifyIdentity (s : Warehouse) (order : NormalizedOrder) (now : Int) :
    Warehouse :=
  { s with identities := upsertShopifyIdentityRows order now s.identities }

/-- The `factOrder.upsert` update branch: all columns of the spread
`orderData` followed by the overriding `updatedAt: new Date()`. -/
def orderUpdateRow (order : NormalizedOrder) (now : Int) (r : OrderRow) : OrderRow :=
  { r with channelId := order.channelId
           locationId := order.locationId
           createdAt := order.createdAt
           updatedAt := now
           customerHash := order.customerHash
           grossTotal := order.grossTotal
           netTotal := order.netTotal
           taxTotal := order.taxTotal
           discountTotal := order.discountTotal
           refundsTotal := order.refundsTotal
           tendersJson := order.tendersJson
           rawJson := order.rawJson }

/-- The `factOrder.upsert` create branch: `id: externalId` plus the spread
`orderData` (whose `updatedAt` is the source order's own timestamp). -/
def orderCreateRow (order : NormalizedOrder) : OrderRow :=
  ⟨order.externalId, order.channelId, order.locationId, order.createdAt,
   order.updatedAt, order.customerHash, order.grossTotal, order.netTotal,
   order.taxTotal, order.discountTotal, order.refundsTotal,
   order.tendersJson, order.rawJson⟩

/-- The `factOrderLine.createMany` data for one normalized line item. -/
def lineCreateRow (externalId : String) (item : NormalizedLineItem) : LineRow :=
  ⟨item.externalId, externalId, item.sku, item.productTitle, item.category,
   item.qty, item.lineTotal⟩

/-- `upsertOrder` from the Shopify backfill script: upsert the customer
identity bridge, upsert the order row by external id, delete every existing
line of that order, recreate the full line set. -/
def upsertOrder (s : Warehouse) (order : NormalizedOrder) (now : Int) : Warehouse :=
  let s1 := upsertShopifyIdentity s order now
  let newOrders := upsertByKey OrderRow.id order.externalId
    (orderUpdateRow order now) (orderCreateRow order) s1.orders
  let s2 := { s1 with orders := newOrders }
  let newLines := (s2.lines.filter (fun l => l.orderId ≠ order.externalId)) ++
    order.lineItems.map (lineCreateRow order.externalId)
  { s2 with lines := newLines }

/-- `batchUpsertOrders` from the Shopify backfill script (no per-record
failures are injected in the model, so every record succeeds). -/
def batchUpsertOrders (s : Warehouse) (orders : List NormalizedOrder) (now : Int) :
    Warehouse × Nat :=
  (orders.foldl (fun acc o => upsertOrder acc o now) s, orders.length)

end JM.Backfill

-- ========================================
-- app/api/webhooks/shopify — handlers
-- ========================================

namespace JM

/-- An HTTP response, reduced to its status code. -/
structure HttpResponse where
  status : Nat
deriving DecidableEq

/-- Rendering of a possibly-undefined string into a JavaScript template
literal (undefined renders as the text `undefined`). -/
def jsTemplate (o : Option String) : String := o.getD "undefined"

/-- Rendering of a possibly-null header value into a template literal
(null renders as the text `null`). -/
def jsTemplateN (o : Option String) : String := o.getD "null"

end JM

namespace JM.ShopifyWebhook

open JM JM.Shopify JM.Backfill

/-- One entry of a REST webhook payload's `transactions` array. -/
structure RestTransaction where
  kind : Option String
  status : Option String
  amount : Option ℚ
  gateway : Option String
deriving DecidableEq

/-- One entry of a REST webhook payload's `line_items` array. -/
structure RestLineItem where
  id : String
  name : String
  sku : Option String
  quantity : Nat
  price : ℚ
  product_id : Option String
  product_type : Option String
deriving DecidableEq

/-- The `customer` object of a REST webhook payload. -/
structure RestCustomer where
  id : String
  email : Option String
  phone : Option String
deriving DecidableEq

/-- One entry of the `refunds` array: the decimal amount string at
`total_refund_set.shop_money.amount`, when present. -/
structure RestRefund where
  amount : Option ℚ
deriving DecidableEq

/-- A Shopify REST webhook payload (the untyped `payload` object), carrying
both the order-shaped fields read by the order handler and the
`order_id`/`amount` fields read by the refund handler. -/
structure RestPayload where
  id : String
  name : Option String
  order_number : Option String
  created_at : Int
  updated_at : Int
  total_price : Option ℚ
  subtotal_price : Option ℚ
  total_discounts : Option ℚ
  total_tax : Option ℚ
  refunds : List RestRefund
  customer : Option RestCustomer
  line_items : List RestLineItem
  transactions : List RestTransaction
  order_id : Option String
  amount : Option ℚ
deriving DecidableEq

/-- `calculateTotalRefunded`: sum of the refund amounts, each defaulting to
the string `'0'` when absent. -/
def calculateTotalRefunded (p : RestPayload) : ℚ :=
  p.refunds.foldl (fun sum r => sum + r.amount.getD 0) 0

/-- `transformWebhookToOrder`: rebuild a GraphQL-shaped order from the REST
payload, with the exact defaulting (`|| '0'`, `|| 'SALE'`, ...) of the
source. -/
def transformWebhookToOrder (p : RestPayload) : ShopifyOrder :=
  { id := "gid://shopify/Order/" ++ p.id
    name := if strTruthy p.name then p.name.getD "" else p.order_number.getD ""
    createdAt := p.created_at
    updatedAt := p.updated_at
    totalPrice := p.total_price.getD 0
    currentSubtotalPrice := p.subtotal_price.getD 0
    totalDiscounts := p.total_discounts.getD 0
    totalTax := p.total_tax.getD 0
    totalRefunded := calculateTotalRefunded p
    customer := p.customer.map (fun c =>
      ⟨"gid://shopify/Customer/" ++ c.id, c.email, c.phone⟩)
    lineItems := p.line_items.map (fun item =>
      { id := "gid://shopify/LineItem/" ++ item.id
        name := item.name
        sku := item.sku
        quantity := item.quantity
        originalTotal := item.price * item.quantity
        product :=
          if strTruthy item.product_id then
            some ⟨"gid://shopify/Product/" ++ item.product_id.getD "",
                  match item.product_type with
                  | some t => if t = "" then none else some t
                  | none => none⟩
          else none })
    transactions := p.transactions.map (fun txn =>
      { kind := if strTruthy txn.kind then jsToUpper (txn.kind.getD "") else "SALE"
        status :=
          if strTruthy txn.status then jsToUpper (txn.status.getD "") else "SUCCESS"
        amount := txn.amount.getD 0
        gateway := if strTruthy txn.gateway then txn.gateway.getD "" else "unknown" })
    }

/-- `handleOrderWebhook` from the Shopify webhook route: normalize the
transformed payload and upsert identity, order and lines.  Unlike the
backfill script's `upsertOrder`, the explicit `create` branch here also sets
`updatedAt: new Date()`. -/
def handleOrderWebhook (sha256hex : String → String) (s : Warehouse)
    (p : RestPayload) (now : Int) : Warehouse :=
  let normalized := normalizeOrder sha256hex (transformWebhookToOrder p)
  let s1 := upsertShopifyIdentity s normalized now
  let createdRow := { orderCreateRow normalized with updatedAt := now }
  let newOrders := upsertByKey OrderRow.id normalized.externalId
    (orderUpdateRow normalized now) createdRow s1.orders
  let s2 := { s1 with orders := newOrders }
  let newLines := (s2.lines.filter (fun l => l.orderId ≠ normalized.externalId)) ++
    normalized.lineItems.map (lineCreateRow normalized.externalId)
  { s2 with lines := newLines }

/-- `handleRefundWebhook` from the Shopify webhook route: look up the order
by `shopify_order_<order_id>`; when absent, log and return without touching
the warehouse; otherwise add the refund amount to `refundsTotal`, recompute
`netTotal` as `grossTotal` minus the new `refundsTotal`, and fold the refund
payload into `rawJson` (the `lastRefund`/`refundedAt` annotations, flattened
to scalar keys here). -/
def handleRefundWebhook (s : Warehouse) (p : RestPayload) (now : Int) : Warehouse :=
  let orderId := "shopify_order_" ++ jsTemplate p.order_id
  let refundAmount := p.amount.getD 0
  match s.orders.find? (fun r => r.id = orderId) with
  | none => s
  | some existingOrder =>
    let newRefundsTotal := existingOrder.refundsTotal + refundAmount
    let newNetTotal := existingOrder.grossTotal - newRefundsTotal
    let upd := fun (r : OrderRow) =>
      { r with refundsTotal := newRefundsTotal
               netTotal := newNetTotal
               updatedAt := now
               rawJson := jsonMerge existingOrder.rawJson
                 [("lastRefund_order_id", .str (jsTemplate p.order_id)),
                  ("lastRefund_amount", .num refundAmount),
                  ("refundedAt", .int now)] }
    { s with orders := updateByKey OrderRow.id orderId upd s.orders }

/-- The `POST` route of the Shopify webhook endpoint: missing or invalid
HMAC responds 401 before anything else runs; then the payload is parsed
(parse failure escapes to the outer catch, a 500), an audit row is created
with status `processing`, the topic is dispatched, and the audit row is
updated to `success` before responding 200. -/
def shopifyWebhookPOST (sha256hex : String → String)
    (hmacB64 : String → String → String) (secretEnv : Option String)
    (topic : Option String) (body : String) (hmacHeader : Option String)
    (webhookId : Option String)
    (parse : String → Except String RestPayload)
    (now : Int) (s : Warehouse) : HttpResponse × Warehouse :=
  match hmacHeader with
  | none => (⟨401⟩, s)
  | some hdr =>
    if verifyWebhookHmac hmacB64 secretEnv body hdr then
      match parse body with
      | .error _ => (⟨500⟩, s)
      | .ok payload =>
        let info : Json :=
          [("topic", .str (jsTemplateN topic)),
           ("webhookId", .str (webhookId.getD "unknown")),
           ("orderId", .str payload.id)]
        let auditRes := auditCreate s "shopify"
          ("webhook_" ++ jsTemplateN topic) "processing" (.info info)
        let s1 := auditRes.1
        let rid := auditRes.2
        let s2 :=
          match topic with
          | some t =>
            if t = "orders/create" ∨ t = "orders/updated" then
              handleOrderWebhook sha256hex s1 payload now
            else if t = "refunds/create" then
              handleRefundWebhook s1 payload now
            else s1
          | none => s1
        let s3 := auditUpdate s2 rid (fun r =>
          { r with status := "success",
                   payload := .info (info ++ [("processedAt", .int now)]) })
        (⟨200⟩, s3)
    else (⟨401⟩, s)

end JM.ShopifyWebhook

-- ========================================
-- lib/anyroad.ts — booking normalization
-- ========================================

namespace JM.AnyRoad

open JM JM.Shopify

/-- The `experience` sub-object of an AnyRoad booking. -/
structure AnyRoadExperienceRef where
  name : String
  category : Option String
deriving DecidableEq

/-- The `primary_guest` object of an AnyRoad booking. -/
structure AnyRoadGuest where
  id : String
  email : Option String
  phone : Option String
deriving DecidableEq

/-- An AnyRoad booking payload.  `event_date`/`start_time`/`end_time` are
carried as integer day and time-of-day values; `cancellation_reason` and
`actual_attendance` are the extra fields read by the cancellation and
completion handlers of the untyped webhook payload. -/
structure AnyRoadBooking where
  id : String
  experience : Option AnyRoadExperienceRef
  event_date : Int
  start_time : Int
  end_time : Option Int
  status : String
  guests_count : Nat
  total_price : ℚ
  add_ons_total : Option ℚ
  primary_guest : Option AnyRoadGuest
  cancellation_reason : Option String
  actual_attendance : Option Nat
deriving DecidableEq

/-- The normalized event emitted by `normalizeBooking`
(`customerIdentity` reduced to the `anyroadGuestId` it carries). -/
structure NormalizedEvent where
  externalId : String
  eventType : String
  startsAt : Int
  endsAt : Option Int
  attendees : Nat
  revenue : ℚ
  addOnSales : ℚ
  rawJson : Json
  customerHash : Option String
  customerIdentity : Option String
deriving DecidableEq

/-- Models `new Date(date + 'T' + time)`: an injective combination of the
day and the time of day. -/
def combineDateTime (d t : Int) : Int := d * 86400 + t

/-- Encoding of the booking payload stored as the `rawJson` column (the code
stores the raw booking object itself). -/
def encodeBooking (b : AnyRoadBooking) : Json :=
  [("id", .str b.id), ("status", .str b.status),
   ("event_date", .int b.event_date), ("start_time", .int b.start_time),
   ("guests_count", .int b.guests_count), ("total_price", .num b.total_price)]

/-- `normalizeBooking` from `lib/anyroad.ts`. -/
def normalizeBooking (sha256hex : String → String) (booking : AnyRoadBooking) :
    NormalizedEvent :=
  let startsAt := combineDateTime booking.event_date booking.start_time
  let endsAt := booking.end_time.map (combineDateTime booking.event_date)
  let revenue := booking.total_price
  let addOnSales := booking.add_ons_total.getD 0
  let customerHash :=
    match booking.primary_guest with
    | some guest => generateCustomerHash sha256hex guest.email guest.phone
    | none => none
  let customerIdentity :=
    match booking.primary_guest, customerHash with
    | some guest, some _ => some ("anyroad_guest_" ++ guest.id)
    | _, _ => none
  let fallbackType :=
    match booking.experience with
    | some e => if jsIncludes (jsToLower e.name) "tour" then "tour" else "experience"
    | none => "experience"
  let eventType :=
    match booking.experience with
    | some e =>
      match e.category with
      | some c => if c = "" then fallbackType else c
      | none => fallbackType
    | none => fallbackType
  { externalId := "anyroad_booking_" ++ booking.id
    eventType := eventType
    startsAt := startsAt
    endsAt := endsAt
    attendees := booking.guests_count
    revenue := revenue
    addOnSales := addOnSales
    rawJson := encodeBooking booking
    customerHash := customerHash
    customerIdentity := customerIdentity }

end JM.AnyRoad

-- ========================================
-- app/api/webhooks/anyroad — processors
-- ========================================

namespace JM.AnyRoadWebhook

open JM JM.AnyRoad

/-- The `bridgeCustomerIdentity.upsert` of the booking handler (writes only
the `anyroadGuestId` channel field). -/
def upsertAnyroadIdentity (s : Warehouse) (n : NormalizedEvent) (now : Int) :
    Warehouse :=
  match n.customerIdentity, n.customerHash with
  | some gid, some ch =>
    if ch = "" then s
    else
      let upd := fun (r : IdentityRow) =>
        { r with anyroadGuestId := some gid, updatedAt := now }
      let created : IdentityRow := ⟨ch, none, none, some gid, now⟩
      { s with identities :=
          upsertByKey IdentityRow.customerHash ch upd created s.identities }
  | _, _ => s

/-- `handleBookingWebhook` (booking.created / booking.updated): upsert the
identity bridge and the event row; the `update` branch writes every business
column including `rawJson`, replacing the stored raw object with the freshly
normalized payload. -/
def handleBookingWebhook (sha256hex : String → String) (s : Warehouse)
    (bookingData : AnyRoadBooking) (now : Int) : Warehouse :=
  let normalized := normalizeBooking sha256hex bookingData
  let s1 := upsertAnyroadIdentity s normalized now
  let upd := fun (r : EventRow) =>
    { r with eventType := normalized.eventType
             startsAt := normalized.startsAt
             endsAt := normalized.endsAt
             attendees := normalized.attendees
             revenue := normalized.revenue
             addOnSales := normalized.addOnSales
             rawJson := normalized.rawJson }
  let created : EventRow :=
    ⟨normalized.externalId, normalized.eventType, normalized.startsAt,
     normalized.endsAt, normalized.attendees, normalized.revenue,
     normalized.addOnSales, normalized.rawJson⟩
  { s1 with events :=
      upsertByKey EventRow.id normalized.externalId upd created s1.events }

/-- `handleBookingCancellation`: when the event exists, zero its revenue and
add-ons and merge the cancellation annotations into the stored `rawJson`
(the spread of the existing object); a missing event is logged and skipped.
A `cancellation_reason` absent from the payload is dropped by JSON
serialization, hence omitted from the merge. -/
def handleBookingCancellation (s : Warehouse) (bookingData : AnyRoadBooking)
    (now : Int) : Warehouse :=
  let eventId := "anyroad_booking_" ++ bookingData.id
  match s.events.find? (fun r => r.id = eventId) with
  | none => s
  | some existingEvent =>
    let annotations : Json :=
      [("cancelled", .bool true), ("cancelledAt", .int now)] ++
        (match bookingData.cancellation_reason with
         | some reason => [("cancellationReason", JVal.str reason)]
         | none => [])
    let upd := fun (r : EventRow) =>
      { r with revenue := 0, addOnSales := 0,
               rawJson := jsonMerge existingEvent.rawJson annotations }
    { s with events := updateByKey EventRow.id eventId upd s.events }

/-- `handleBookingCompletion`: when the event exists, merge the completion
annotations into the stored `rawJson`; when it does not, fall back to
`handleBookingWebhook` to create it. -/
def handleBookingCompletion (sha256hex : String → String) (s : Warehouse)
    (bookingData : AnyRoadBooking) (now : Int) : Warehouse :=
  let eventId := "anyroad_booking_" ++ bookingData.id
  match s.events.find? (fun r => r.id = eventId) with
  | none => handleBookingWebhook sha256hex s bookingData now
  | some existingEvent =>
    let actual : Nat :=
      match bookingData.actual_attendance with
      | some a => if a = 0 then bookingData.guests_count else a
      | none => bookingData.guests_count
    let annotations : Json :=
      [("completed", .bool true), ("completedAt", .int now),
       ("actualAttendees", .int actual)]
    let upd := fun (r : EventRow) =>
      { r with rawJson := jsonMerge existingEvent.rawJson annotations }
    { s with events := updateByKey EventRow.id eventId upd s.events }

end JM.AnyRoadWebhook

-- ========================================
-- lib/square.ts — types and normalization
-- ========================================

namespace JM.Square

open JM JM.Shopify

/-- A Square money value: an integer amount of minor units (cents). -/
structure SquareMoney where
  amount : Int
deriving DecidableEq

/-- One Square order line item (`quantity` is a numeral string on the wire;
it is carried here as the number it denotes). -/
structure SquareLineItem where
  uid : String
  name : String
  quantity : Nat
  catalogObjectId : Option String
  variationName : Option String
  totalMoney : SquareMoney
deriving DecidableEq

/-- A Square order. -/
structure SquareOrder where
  id : String
  locationId : String
  createdAt : Int
  updatedAt : Int
  state : String
  totalMoney : SquareMoney
  totalTaxMoney : Option SquareMoney
  totalDiscountMoney : Option SquareMoney
  lineItems : List SquareLineItem
deriving DecidableEq

/-- One processing-fee entry of a Square payment. -/
structure SquareFee where
  amountMoney : SquareMoney
  feeType : String
deriving DecidableEq

/-- A Square payment. -/
structure SquarePayment where
  id : String
  orderId : Option String
  locationId : String
  amountMoney : SquareMoney
  status : String
  sourceType : Option String
  processingFee : List SquareFee
  refundedMoney : Option SquareMoney
  buyerEmailAddress : Option String
deriving DecidableEq

/-- The per-order aggregate built by `reconcilePaymentsToOrders`. -/
structure PayAgg where
  payments : List SquarePayment
  totalPaid : ℚ
  totalFees : ℚ
  totalRefunded : ℚ
deriving DecidableEq

/-- Association-list update used for the `Map` of payment aggregates. -/
def aggSet (m : List (String × PayAgg)) (k : String) (v : PayAgg) :
    List (String × PayAgg) :=
  if m.any (fun p => p.1 = k) then
    m.map (fun p => if p.1 = k then (k, v) else p)
  else
    m ++ [(k, v)]

/-- `reconcilePaymentsToOrders` from `lib/square.ts`: group payments by
their order reference; only payments in status `COMPLETED` contribute to
the paid/fee/refunded totals (the `orders` argument is not consulted, as in
the source). -/
def reconcilePaymentsToOrders (orders : List SquareOrder)
    (payments : List SquarePayment) : List (String × PayAgg) :=
  let _ := orders
  payments.foldl (fun orderPayments payment =>
    match payment.orderId with
    | none => orderPayments
    | some oid =>
      if oid = "" then orderPayments
      else
        let existing :=
          match (orderPayments.find? (fun p => p.1 = oid)) with
          | some p => p.2
          | none => ⟨[], 0, 0, 0⟩
        let amount : ℚ := (payment.amountMoney.amount : ℚ) / 100
        let refunded : ℚ :=
          match payment.refundedMoney with
          | some m => (m.amount : ℚ) / 100
          | none => 0
        let fees : ℚ := payment.processingFee.foldl
          (fun sum fee => sum + (fee.amountMoney.amount : ℚ) / 100) 0
        let withPayment := { existing with payments := existing.payments ++ [payment] }
        let updated :=
          if payment.status = "COMPLETED" then
            { withPayment with totalPaid := withPayment.totalPaid + amount
                               totalFees := withPayment.totalFees + fees
                               totalRefunded := withPayment.totalRefunded + refunded }
          else withPayment
        aggSet orderPayments oid updated) []

/-- Encoding of the Square order/payment pair stored as `rawJson`. -/
def encodeSquareRaw (order : SquareOrder) (paymentData : Option PayAgg) : Json :=
  [("order_id", .str order.id), ("order_state", .str order.state),
   ("payments_count", .int (match paymentData with
                            | some pd => pd.payments.length
                            | none => 0)),
   ("fees", .num (match paymentData with
                  | some pd => pd.totalFees
                  | none => 0))]

/-- `normalizeOrder` from `lib/square.ts`: Square money (integer cents) is
converted by exact division by 100; `refundsTotal` comes from the payment
aggregate (`|| 0`), and `netTotal` is `grossTotal - refundsTotal`.  The
tenders list is reduced to the payment id/status/amount triple. -/
def normalizeOrder (sha256hex : String → String) (order : SquareOrder)
    (paymentData : Option PayAgg) : NormalizedOrder :=
  let grossTotal : ℚ := (order.totalMoney.amount : ℚ) / 100
  let taxTotal : ℚ :=
    match order.totalTaxMoney with
    | some m => (m.amount : ℚ) / 100
    | none => 0
  let discountTotal : ℚ :=
    match order.totalDiscountMoney with
    | some m => (m.amount : ℚ) / 100
    | none => 0
  let refundsTotal : ℚ :=
    match paymentData with
    | some pd => pd.totalRefunded
    | none => 0
  let netTotal := grossTotal - refundsTotal
  let customerEmail :=
    match paymentData with
    | some pd =>
      match pd.payments.find? (fun p => strTruthy p.buyerEmailAddress) with
      | some p => p.buyerEmailAddress
      | none => none
    | none => none
  let customerHash :=
    match customerEmail with
    | some e => hashPii sha256hex (some e)
    | none => none
  let tendersJson :=
    match paymentData with
    | some pd => pd.payments.map (fun p =>
        Tender.mk (p.sourceType.getD "") ((p.amountMoney.amount : ℚ) / 100))
    | none => []
  let lineItems := order.lineItems.map (fun item =>
    { externalId := "square_lineitem_" ++ item.uid
      sku := if strTruthy item.catalogObjectId then item.catalogObjectId else none
      productTitle :=
        match item.variationName with
        | some v => if v = "" then item.name else item.name ++ " - " ++ v
        | none => item.name
      category := none
      qty := item.quantity
      lineTotal := ((item.totalMoney.amount : ℚ) / 100 : ℚ) })
  { externalId := "square_order_" ++ order.id
    channelId := "square"
    locationId := some ("square_location_" ++ order.locationId)
    createdAt := order.createdAt
    updatedAt := order.updatedAt
    customerHash := customerHash
    grossTotal := grossTotal
    netTotal := netTotal
    taxTotal := taxTotal
    discountTotal := discountTotal
    refundsTotal := refundsTotal
    tendersJson := tendersJson
    rawJson := encodeSquareRaw order paymentData
    lineItems := lineItems
    customerIdentity :=
      match customerEmail with
      | some _ => some ⟨none, none, none⟩
      | none => none }

/-- `normalizeOrders` from `lib/square.ts`. -/
def normalizeOrders (sha256hex : String → String) (orders : List SquareOrder)
    (paymentsMap : List (String × PayAgg)) : List NormalizedOrder :=
  orders.map (fun order =>
    let paymentData := (paymentsMap.find? (fun p => p.1 = order.id)).map Prod.snd
    normalizeOrder sha256hex order paymentData)

/-- A Square location as returned by the locations API (`name` nullable). -/
structure SquareLocationRaw where
  id : String
  name : Option String
deriving DecidableEq

/-- A location as returned by `getLocations`. -/
structure SquareLocation where
  id : String
  name : String
deriving DecidableEq

/-- `getLocations` from `lib/square.ts`: on any API failure the error is
logged and the empty list is returned — the function never raises. -/
def getLocations (apiResult : Except String (List SquareLocationRaw)) :
    List SquareLocation :=
  match apiResult with
  | .error _ => []
  | .ok locs => locs.map (fun loc =>
      ⟨loc.id, if strTruthy loc.name then loc.name.getD "" else "Unnamed Location"⟩)

/-- `verifyWebhookSignature` from `lib/square.ts`: false when the webhook
secret is unset; otherwise the base64 HMAC-SHA256 of `webhookUrl + body`
compared timing-safely against the signature header. -/
def verifyWebhookSignature (hmacB64 : String → String → String)
    (secretEnv : Option String) (body signature webhookUrl : String) : Bool :=
  match secretEnv with
  | none => false
  | some secret =>
    if secret = "" then false
    else hmacB64 secret (webhookUrl ++ body) = signature

end JM.Square

-- ========================================
-- app/api/webhooks/square — POST entry
-- ========================================

namespace JM.SquareRoute

open JM JM.Square

/-- The `POST` route of the Square webhook endpoint.  A missing signature
header or a failed verification responds 401 before any processing.
`processEvent` is the continuation covering everything after verification
(payload parse, audit row, payment/order dispatch, audit terminal update);
the claims settled here concern only the gate in front of it. -/
def squareWebhookPOST (hmacB64 : String → String → String)
    (secretEnv : Option String) (webhookUrl body : String)
    (signature : Option String)
    (processEvent : Warehouse → HttpResponse × Warehouse)
    (s : Warehouse) : HttpResponse × Warehouse :=
  match signature with
  | none => (⟨401⟩, s)
  | some sig =>
    if verifyWebhookSignature hmacB64 secretEnv body sig webhookUrl then
      processEvent s
    else (⟨401⟩, s)

end JM.SquareRoute

-- ========================================
-- app/api/admin/resync — Square branch
-- ========================================

namespace JM.Resync

open JM JM.Shopify JM.Square

/-- Outcome of a resync: the processed count on success, or the error
message on failure, each with the warehouse as left behind (writes made
before a failure persist). -/
inductive ResyncOutcome where
  | ok : Nat → Warehouse → ResyncOutcome
  | failed : String → Warehouse → ResyncOutcome
deriving DecidableEq

/-- The `bridgeCustomerIdentity.upsert` of the Square resync, on the
identity rows: it writes the `squareCustomerId` channel field; an
`undefined` value is skipped by the update (Prisma semantics), leaving the
stored field untouched. -/
def upsertSquareIdentityRows (order : NormalizedOrder) (now : Int)
    (l : List IdentityRow) : List IdentityRow :=
  match order.customerIdentity with
  | none => l
  | some ci =>
    match order.customerHash with
    | none => l
    | some ch =>
      if ch = "" then l
      else
        upsertByKey IdentityRow.customerHash ch
          (fun r =>
            { r with
              squareCustomerId :=
                  (match ci.squareCustomerId with
                   | some v => some v
                   | none => r.squareCustomerId),
              updatedAt := now })
          ⟨ch, none, ci.squareCustomerId, none, now⟩ l

/-- The same upsert lifted to the warehouse. -/
def upsertSquareIdentity (s : Warehouse) (order : NormalizedOrder) (now : Int) :
    Warehouse :=
  { s with identities := upsertSquareIdentityRows order now s.identities }

/-- The per-order upsert of the Square resync loop: identity bridge, order
row, then delete-and-recreate of the line set (the same sequence as the
backfill script's `upsertOrder`). -/
def resyncUpsertSquareOrder (s : Warehouse) (order : NormalizedOrder) (now : Int) :
    Warehouse :=
  let s1 := upsertSquareIdentity s order now
  let newOrders := upsertByKey OrderRow.id order.externalId
    (JM.Backfill.orderUpdateRow order now) (JM.Backfill.orderCreateRow order) s1.orders
  let s2 := { s1 with orders := newOrders }
  let newLines := (s2.lines.filter (fun l => l.orderId ≠ order.externalId)) ++
    order.lineItems.map (JM.Backfill.lineCreateRow order.externalId)
  { s2 with lines := newLines }

/-- The body of `resyncSquare`'s per-location loop, over the remaining
locations.  A failing orders or payments fetch aborts the loop with the
error (the surrounding catch re-raises), keeping the writes made so far. -/
def resyncSquareGo (sha256hex : String → String)
    (fetchOrdersFor : String → Except String (List SquareOrder))
    (fetchPaymentsFor : String → Except String (List SquarePayment))
    (now : Int) :
    List SquareLocation → Nat → Warehouse → ResyncOutcome
  | [], total, s => .ok total s
  | location :: rest, total, s =>
    let locId := "square_location_" ++ location.id
    let updLoc := fun (r : LocationRow) =>
      { r with name := location.name, channel := "square" }
    let newLocs := upsertByKey LocationRow.id locId updLoc
      ⟨locId, location.name, "square"⟩ s.dimLocations
    let sLoc := { s with dimLocations := newLocs }
    match fetchOrdersFor location.id with
    | .error e => .failed e sLoc
    | .ok orders =>
      match fetchPaymentsFor location.id with
      | .error e => .failed e sLoc
      | .ok payments =>
        let paymentsMap := reconcilePaymentsToOrders orders payments
        let normalized := normalizeOrders sha256hex orders paymentsMap
        let s2 := normalized.foldl (fun st o => resyncUpsertSquareOrder st o now) sLoc
        resyncSquareGo sha256hex fetchOrdersFor fetchPaymentsFor now
          rest (total + normalized.length) s2

/-- `resyncSquare` from the admin resync endpoint: `getLocations` (which
swallows locations-API failures into an empty list), then the per-location
fetch/normalize/upsert loop. -/
def resyncSquare (sha256hex : String → String)
    (locationsApi : Except String (List SquareLocationRaw))
    (fetchOrdersFor : String → Except String (List SquareOrder))
    (fetchPaymentsFor : String → Except String (List SquarePayment))
    (now : Int) (s : Warehouse) : ResyncOutcome :=
  resyncSquareGo sha256hex fetchOrdersFor fetchPaymentsFor now
    (getLocations locationsApi) 0 s

/-- The `source === 'square'` branch of the admin resync `POST`: run
`resyncSquare`; on success record an audit row with status `success` and
payload `(date, count)` and report the count; on failure record a `failed`
audit row with the error and report 0. -/
def resyncSquareBranch (sha256hex : String → String)
    (locationsApi : Except String (List SquareLocationRaw))
    (fetchOrdersFor : String → Except String (List SquareOrder))
    (fetchPaymentsFor : String → Except String (List SquarePayment))
    (date now : Int) (s : Warehouse) : Nat × Warehouse :=
  match resyncSquare sha256hex locationsApi fetchOrdersFor fetchPaymentsFor now s with
  | .ok count s2 =>
    let a := auditCreate s2 "square" "resync_square" "success"
      (.resyncInfo date (some count))
    (count, a.1)
  | .failed msg s2 =>
    let rid := s2.audits.length
    (0, { s2 with audits := s2.audits ++
        [⟨rid, "square", "resync_square", "failed", some msg, .resyncInfo date none⟩] })

end JM.Resync

-- ========================================
-- scripts/reconcile.ts — reconcileShopify
-- ========================================

namespace JM.Reconcile

open JM JM.Shopify

/-- The `ReconciliationResult` record of the reconcile script (`dateRange`
split into its bounds, `status` as its literal string). -/
structure ReconciliationResult where
  source : String
  startDate : Int
  endDate : Int
  sourceCount : Nat
  warehouseCount : Nat
  sourceRevenue : ℚ
  warehouseRevenue : ℚ
  countDiff : Int
  revenueDiff : ℚ
  status : String
deriving DecidableEq

/-- `reconcileShopify` from the reconcile script: source totals from the
fetched orders (net = total price minus total refunded per order),
warehouse totals from the `FactOrder` rows of channel `shopify` created in
the window; `match` exactly when the count difference is zero and the
absolute revenue difference is under 1; any fetch failure is caught and
reported as status `error` with zeroed figures. -/
def reconcileShopify (fetched : Except String (List ShopifyOrder))
    (s : Warehouse) (startDate endDate : Int) : ReconciliationResult :=
  match fetched with
  | .error _ =>
    { source := "shopify", startDate := startDate, endDate := endDate,
      sourceCount := 0, warehouseCount := 0, sourceRevenue := 0,
      warehouseRevenue := 0, countDiff := 0, revenueDiff := 0,
      status := "error" }
  | .ok shopifyOrders =>
    let sourceCount := shopifyOrders.length
    let sourceRevenue := shopifyOrders.foldl
      (fun sum order => sum + (order.totalPrice - order.totalRefunded)) 0
    let warehouseOrders := s.orders.filter (fun r =>
      r.channelId = "shopify" ∧ startDate ≤ r.createdAt ∧ r.createdAt ≤ endDate)
    let warehouseCount := warehouseOrders.length
    let warehouseRevenue := warehouseOrders.foldl
      (fun sum r => sum + r.netTotal) 0
    let countDiff : Int := (warehouseCount : Int) - (sourceCount : Int)
    let revenueDiff := warehouseRevenue - sourceRevenue
    { source := "shopify", startDate := startDate, endDate := endDate,
      sourceCount := sourceCount, warehouseCount := warehouseCount,
      sourceRevenue := sourceRevenue, warehouseRevenue := warehouseRevenue,
      countDiff := countDiff, revenueDiff := revenueDiff,
      status := if countDiff = 0 ∧ |revenueDiff| < 1 then "match" else "mismatch" }

end JM.Reconcile

-- ========================================
-- scripts/shopify-backfill.ts — orchestrator
-- ========================================

namespace JM.Backfill

open JM JM.Shopify

/-- `saveCheckpoint`: an `IngestAudit` row of type `backfill_checkpoint`
with the checkpoint as payload. -/
def saveCheckpoint (s : Warehouse) (checkpoint : Checkpoint) : Warehouse :=
  (auditCreate s "shopify" "backfill_checkpoint" "success" (.cp checkpoint)).1

/-- `getLastCheckpoint`: the most recent successful checkpoint audit row for
the Shopify source, decoded from its payload. -/
def getLastCheckpoint (s : Warehouse) : Option Checkpoint :=
  match (s.audits.filter (fun r =>
      r.source = "shopify" ∧ r.auditType = "backfill_checkpoint" ∧
        r.status = "success")).getLast? with
  | some row =>
    match row.payload with
    | .cp c => some c
    | _ => none
  | none => none

/-- Shopify pagination info. -/
structure PageInfo where
  hasNextPage : Bool
  endCursor : Option Nat
deriving DecidableEq

/-- The order set matched by the `created_at` range query, ascending by
creation time (the source dataset is taken already sorted). -/
def shopifyQuery (src : List ShopifyOrder) (startDate endDate : Int) :
    List ShopifyOrder :=
  src.filter (fun o => startDate ≤ o.createdAt ∧ o.createdAt ≤ endDate)

/-- `fetchOrdersByDateRange`: one page of (up to) 50 orders of the range
query after the opaque cursor, here the count of already-consumed items. -/
def fetchOrdersByDateRange (src : List ShopifyOrder) (startDate endDate : Int)
    (cursor : Option Nat) : List ShopifyOrder × PageInfo :=
  let qs := shopifyQuery src startDate endDate
  let c := cursor.getD 0
  let page := (qs.drop c).take 50
  let endCursor := c + page.length
  (page, ⟨decide (endCursor < qs.length), some endCursor⟩)

/-- The mutable state of `processDateWindow`'s page loop. -/
structure PageLoop where
  s : Warehouse
  cursor : Option Nat
  totalProcessed : Nat
deriving DecidableEq

/-- One iteration of `processDateWindow`'s `while (true)` body: fetch a
page; stop on an empty page; otherwise normalize, upsert the batch, and
only then persist the checkpoint (window bounds, end cursor, cumulative
count); stop when no further page exists.  The returned flag is whether the
loop breaks. -/
def pageStep (sha256hex : String → String) (src : List ShopifyOrder) (now : Int)
    (startDate endDate : Int) (st : PageLoop) : PageLoop × Bool :=
  let fetched := fetchOrdersByDateRange src startDate endDate st.cursor
  let orders := fetched.1
  let pageInfo := fetched.2
  if orders.length = 0 then (st, true)
  else
    let normalizedOrders := normalizeOrders sha256hex orders
    let bres := batchUpsertOrders st.s normalizedOrders now
    let total := st.totalProcessed + bres.2
    let s2 := saveCheckpoint bres.1
      ⟨startDate, endDate, pageInfo.endCursor, total⟩
    (⟨s2, pageInfo.endCursor, total⟩, !pageInfo.hasNextPage)

/-- The page loop, driven by explicit fuel (`processDateWindow` passes
enough fuel for the loop to reach its own break). -/
def runPages (sha256hex : String → String) (src : List ShopifyOrder) (now : Int)
    (startDate endDate : Int) : Nat → PageLoop → PageLoop
  | 0, st => st
  | fuel + 1, st =>
    let r := pageStep sha256hex src now startDate endDate st
    if r.2 then r.1
    else runPages sha256hex src now startDate endDate fuel r.1

/-- `processDateWindow`: run the page loop from the resume cursor until it
breaks, returning the final warehouse and the processed count. -/
def processDateWindow (sha256hex : String → String) (src : List ShopifyOrder)
    (now : Int) (startDate endDate : Int) (resumeCursor : Option Nat)
    (s : Warehouse) : Warehouse × Nat :=
  let qs := shopifyQuery src startDate endDate
  let final := runPages sha256hex src now startDate endDate (qs.length + 1)
    ⟨s, resumeCursor, 0⟩
  (final.s, final.totalProcessed)

/-- A run of `processDateWindow` whose process is killed right after the
`pagesBeforeAbort`-th page's checkpoint write: the same per-page step,
stopped early. -/
def processDateWindowAborted (sha256hex : String → String)
    (src : List ShopifyOrder) (now : Int) (startDate endDate : Int)
    (resumeCursor : Option Nat) (s : Warehouse) (pagesBeforeAbort : Nat) :
    Warehouse :=
  (runPages sha256hex src now startDate endDate pagesBeforeAbort
    ⟨s, resumeCursor, 0⟩).s

/-- `backfillShopify`'s date-window `while` loop: each iteration processes
`[currentStart, min (currentStart + 7) endDate]` — passing
`checkpoint?.cursor` to every window, as the source does — then advances to
the day after the window end. -/
def runWindows (sha256hex : String → String) (src : List ShopifyOrder)
    (now : Int) (endDate : Int) (checkpoint : Option Checkpoint) :
    Nat → Int → Warehouse → Warehouse
  | 0, _, s => s
  | fuel + 1, currentStart, s =>
    if currentStart < endDate then
      let windowEnd := currentStart + 7
      let actualEnd := if windowEnd > endDate then endDate else windowEnd
      let pr := processDateWindow sha256hex src now currentStart actualEnd
        (checkpoint.bind Checkpoint.cursor) s
      runWindows sha256hex src now endDate checkpoint fuel (actualEnd + 1) pr.1
    else s

/-- `backfillShopify`: compute the requested range from the lookback, read
the latest checkpoint and start from its `endDate` when present (otherwise
from the range start), loop the date windows, then record the
`backfill_complete` audit row. -/
def backfillShopify (sha256hex : String → String) (src : List ShopifyOrder)
    (now lookbackDays : Int) (s : Warehouse) : Warehouse :=
  let endDate := now
  let startDate := now - lookbackDays
  let checkpoint := getLastCheckpoint s
  let currentStart :=
    match checkpoint with
    | some c => c.endDate
    | none => startDate
  let fuel := (endDate - currentStart).toNat + 1
  let s1 := runWindows sha256hex src now endDate checkpoint fuel currentStart s
  (auditCreate s1 "shopify" "backfill_complete" "success"
    (.info [("startDate", .int startDate), ("endDate", .int endDate)])).1

end JM.Backfill

-- ========================================
-- Properties
-- ========================================

namespace JM

open JM.Shopify JM.Square

/-- The rounding policy in the spec's words — round half to even at 2
decimal places — stated only to compare the adapters' actual money
conversion against it. -/
def specRoundHalfEven2 (x : ℚ) : ℚ :=
  let y := x * 100
  let f : Int := ⌊y⌋
  let r := y - (f : ℚ)
  let n : Int :=
    if r < 1/2 then f
    else if 1/2 < r then f + 1
    else if f % 2 = 0 then f else f + 1
  (n : ℚ) / 100

/-- C3.  `hashPii` (the `lib/shopify.ts` implementation, the one every
adapter imports) lowercases and trims its input, returns null on null or
empty input, and identifies inputs equal after normalization — but the
digest primitive it consumes is the keyless `crypto.createHash('sha256')`
(type `String → String`): for every behavior of that primitive the output
is the plain truncated digest of the normalized value, with no secret key
anywhere, contradicting the claimed keyed HMAC (which only the unused
security-module `hashPii` implements). -/
theorem hashPii_unkeyed_plain_hash (sha256hex : String → String) :
    JM.Shopify.hashPii sha256hex (some "A@B.com")
        = some (jsTake (sha256hex "a@b.com") 32) ∧
    JM.Shopify.hashPii sha256hex (some " a@b.com ")
        = JM.Shopify.hashPii sha256hex (some "A@B.com") ∧
    JM.Shopify.hashPii sha256hex none = none ∧
    JM.Shopify.hashPii sha256hex (some "") = none := by
  have e1 : jsTrim (jsToLower "A@B.com") = "a@b.com" := by decide
  have e2 : jsTrim (jsToLower " a@b.com ") = "a@b.com" := by decide
  refine ⟨?_, ?_, rfl, rfl⟩
  · simp [JM.Shopify.hashPii, e1]
  · simp [JM.Shopify.hashPii, e1, e2]

/-- A Shopify order whose total-price amount string is `10.005`, carrying a
third decimal place. -/
def c4order : ShopifyOrder :=
  { id := "gid://shopify/Order/44", name := "#44", createdAt := 1,
    updatedAt := 1, totalPrice := 2001/200, currentSubtotalPrice := 2001/200,
    totalDiscounts := 0, totalTax := 0, totalRefunded := 0, customer := none,
    lineItems := [], transactions := [] }

/-- C4, counterexample.  The adapter emits the gross total of `c4order`
as exactly 10.005, not as its round-half-even 2-decimal-place rounding 10:
no rounding to a 2-decimal fixed-point representation happens before the
canonical record is emitted. -/
theorem normalizeOrder_not_rounded_cex :
    (JM.Shopify.normalizeOrder id c4order).grossTotal = 2001/200 ∧
    specRoundHalfEven2 (2001/200) = 10 ∧
    (JM.Shopify.normalizeOrder id c4order).grossTotal
      ≠ specRoundHalfEven2 (2001/200) := by
  have hg : (JM.Shopify.normalizeOrder id c4order).grossTotal = 2001/200 := rfl
  have hf : (⌊(2001 : ℚ)/200 * 100⌋ : Int) = 1000 := by
    rw [Int.floor_eq_iff]
    norm_num
  have hr : specRoundHalfEven2 (2001/200) = 10 := by
    simp only [specRoundHalfEven2, hf]
    norm_num
  refine ⟨hg, hr, ?_⟩
  rw [hg, hr]
  norm_num

/-- C4, amended.  The adapters' money conversion applies no rounding at
all: the Shopify adapter emits each decimal amount exactly as parsed, and
the Square adapter converts integer minor units by exact division by 100. -/
theorem money_conversion_exact (sha256hex : String → String)
    (o : ShopifyOrder) (sq : SquareOrder) (pd : Option PayAgg) :
    (JM.Shopify.normalizeOrder sha256hex o).grossTotal = o.totalPrice ∧
    (JM.Shopify.normalizeOrder sha256hex o).taxTotal = o.totalTax ∧
    (JM.Shopify.normalizeOrder sha256hex o).discountTotal = o.totalDiscounts ∧
    (JM.Shopify.normalizeOrder sha256hex o).refundsTotal = o.totalRefunded ∧
    (JM.Shopify.normalizeOrder sha256hex o).netTotal
      = o.totalPrice - o.totalRefunded ∧
    (JM.Square.normalizeOrder sha256hex sq pd).grossTotal
      = (sq.totalMoney.amount : ℚ) / 100 ∧
    ((JM.Square.normalizeOrder sha256hex sq pd).grossTotal * 100
      = (sq.totalMoney.amount : ℚ)) := by
  refine ⟨rfl, rfl, rfl, rfl, rfl, rfl, ?_⟩
  show (sq.totalMoney.amount : ℚ) / 100 * 100 = (sq.totalMoney.amount : ℚ)
  field_simp

end JM

namespace JM

open JM.Shopify JM.Square JM.Resync JM.ShopifyWebhook JM.SquareRoute

/-- C10.  When the Square locations API call fails, `getLocations` swallows
the error into an empty location list, so `resyncSquare` completes
successfully with a processed count of 0 and an untouched warehouse; the
admin resync branch then reports 0 and appends a `success` audit row with
count 0 — and its audit log (the admin-resync interface) is identical to
that of a run against a healthy API whose one location has no orders that
day. -/
theorem square_locations_failure_like_empty_day
    (sha256hex : String → String) (e : String)
    (fo : String → Except String (List SquareOrder))
    (fp : String → Except String (List SquarePayment))
    (date now : Int) (s : Warehouse) (locRaw : SquareLocationRaw) :
    getLocations (.error e) = [] ∧
    resyncSquare sha256hex (.error e) fo fp now s = .ok 0 s ∧
    (resyncSquareBranch sha256hex (.error e) fo fp date now s).1 = 0 ∧
    ((resyncSquareBranch sha256hex (.error e) fo fp date now s).2).audits
      = s.audits ++ [⟨s.audits.length, "square", "resync_square", "success",
                      none, .resyncInfo date (some 0)⟩] ∧
    ((resyncSquareBranch sha256hex (.error e) fo fp date now s).2).audits
      = ((resyncSquareBranch sha256hex (.ok [locRaw])
            (fun _ => .ok []) (fun _ => .ok []) date now s).2).audits ∧
    (resyncSquareBranch sha256hex (.ok [locRaw])
        (fun _ => .ok []) (fun _ => .ok []) date now s).1 = 0 :=
  ⟨rfl, rfl, rfl, rfl, rfl, rfl⟩

/-- C8.  Every webhook request whose signature header is missing, or whose
signature fails verification, is answered 401 with the warehouse returned
exactly as it was: no audit row is created and no warehouse write occurs,
for both the Shopify and the Square endpoints, whatever the downstream
handlers would do. -/
theorem webhook_bad_signature_rejected
    (sha256hex : String → String) (hmacB64 : String → String → String)
    (secretEnv : Option String) (topic : Option String) (body : String)
    (webhookId : Option String)
    (parse : String → Except String RestPayload)
    (now : Int) (s : Warehouse) (webhookUrl : String)
    (processEvent : Warehouse → HttpResponse × Warehouse) :
    (shopifyWebhookPOST sha256hex hmacB64 secretEnv topic body none
        webhookId parse now s = (⟨401⟩, s)) ∧
    (∀ hdr, verifyWebhookHmac hmacB64 secretEnv body hdr = false →
      shopifyWebhookPOST sha256hex hmacB64 secretEnv topic body (some hdr)
        webhookId parse now s = (⟨401⟩, s)) ∧
    (squareWebhookPOST hmacB64 secretEnv webhookUrl body none
        processEvent s = (⟨401⟩, s)) ∧
    (∀ sig, verifyWebhookSignature hmacB64 secretEnv body sig webhookUrl = false →
      squareWebhookPOST hmacB64 secretEnv webhookUrl body (some sig)
        processEvent s = (⟨401⟩, s)) := by
  refine ⟨rfl, ?_, rfl, ?_⟩
  · intro hdr h
    simp [shopifyWebhookPOST, h]
  · intro sig h
    simp [squareWebhookPOST, h]

/-- C8, witness.  A concrete one-byte alteration: the header carries the
valid signature of body `abc`, the delivered body is `abd`; both endpoints
answer 401 and leave the warehouse untouched. -/
theorem webhook_bad_signature_rejected_witness :
    shopifyWebhookPOST id (fun k m => k ++ ":" ++ m) (some "sec")
      (some "orders/create") "abd" (some "sec:abc") none
      (fun _ => .error "not parsed") 0 emptyWarehouse
      = (⟨401⟩, emptyWarehouse) ∧
    squareWebhookPOST (fun k m => k ++ ":" ++ m) (some "sec")
      "https://x/api/webhooks/square" "abd"
      (some "sec:https://x/api/webhooks/squareabc")
      (fun s => (⟨200⟩, s)) emptyWarehouse
      = (⟨401⟩, emptyWarehouse) := by
  constructor
  · exact (webhook_bad_signature_rejected id (fun k m => k ++ ":" ++ m)
      (some "sec") (some "orders/create") "abd" none
      (fun _ => .error "not parsed") 0 emptyWarehouse
      "https://x/api/webhooks/square" (fun s => (⟨200⟩, s))).2.1
      "sec:abc" (by decide)
  · exact (webhook_bad_signature_rejected id (fun k m => k ++ ":" ++ m)
      (some "sec") (some "orders/create") "abd" none
      (fun _ => .error "not parsed") 0 emptyWarehouse
      "https://x/api/webhooks/square" (fun s => (⟨200⟩, s))).2.2.2
      "sec:https://x/api/webhooks/squareabc" (by decide)

end JM

namespace JM

open JM.Shopify JM.ShopifyWebhook

/-- The refund handler makes no warehouse change when the referenced order
is not in the warehouse. -/
theorem handleRefundWebhook_not_found (s : Warehouse) (payload : RestPayload)
    (now : Int) (oid : String) (ho : payload.order_id = some oid)
    (hmiss : s.orders.find? (fun r => r.id = "shopify_order_" ++ oid) = none) :
    handleRefundWebhook s payload now = s := by
  unfold handleRefundWebhook
  rw [ho]
  show (match s.orders.find?
      (fun r => r.id = "shopify_order_" ++ jsTemplate (some oid)) with
    | none => s
    | some existingOrder => _) = s
  simp only [jsTemplate, Option.getD_some]
  rw [hmiss]

/-- C9.  A `refunds/create` webhook whose `order_id` has no corresponding
order row leaves every fact table untouched, yet the request completes:
exactly one audit row is appended, it ends in status `success`, and the
response is 200 — the refund is dropped, not surfaced as a failure. -/
theorem refund_unknown_order_dropped
    (sha256hex : String → String) (hmacB64 : String → String → String)
    (secretEnv : Option String) (body hdr : String) (webhookId : Option String)
    (parse : String → Except String RestPayload) (now : Int) (s : Warehouse)
    (payload : RestPayload) (oid : String)
    (hv : verifyWebhookHmac hmacB64 secretEnv body hdr = true)
    (hp : parse body = .ok payload)
    (ho : payload.order_id = some oid)
    (hmiss : s.orders.find? (fun r => r.id = "shopify_order_" ++ oid) = none) :
    (shopifyWebhookPOST sha256hex hmacB64 secretEnv (some "refunds/create")
        body (some hdr) webhookId parse now s).1 = ⟨200⟩ ∧
    (shopifyWebhookPOST sha256hex hmacB64 secretEnv (some "refunds/create")
        body (some hdr) webhookId parse now s).2.orders = s.orders ∧
    (shopifyWebhookPOST sha256hex hmacB64 secretEnv (some "refunds/create")
        body (some hdr) webhookId parse now s).2.lines = s.lines ∧
    (shopifyWebhookPOST sha256hex hmacB64 secretEnv (some "refunds/create")
        body (some hdr) webhookId parse now s).2.events = s.events ∧
    (shopifyWebhookPOST sha256hex hmacB64 secretEnv (some "refunds/create")
        body (some hdr) webhookId parse now s).2.identities = s.identities ∧
    (shopifyWebhookPOST sha256hex hmacB64 secretEnv (some "refunds/create")
        body (some hdr) webhookId parse now s).2.audits.length
      = s.audits.length + 1 ∧
    ((shopifyWebhookPOST sha256hex hmacB64 secretEnv (some "refunds/create")
        body (some hdr) webhookId parse now s).2.audits.getLast?).map
        AuditRow.status = some "success" ∧
    ((shopifyWebhookPOST sha256hex hmacB64 secretEnv (some "refunds/create")
        body (some hdr) webhookId parse now s).2.audits.getLast?).map
        AuditRow.auditType = some "webhook_refunds/create" := by
  have hs1 : (auditCreate s "shopify" ("webhook_" ++ jsTemplateN
      (some "refunds/create")) "processing"
      (.info [("topic", .str (jsTemplateN (some "refunds/create"))),
              ("webhookId", .str (webhookId.getD "unknown")),
              ("orderId", .str payload.id)])).1.orders = s.orders := rfl
  have hdrop : handleRefundWebhook
      (auditCreate s "shopify" ("webhook_" ++ jsTemplateN
        (some "refunds/create")) "processing"
        (.info [("topic", .str (jsTemplateN (some "refunds/create"))),
                ("webhookId", .str (webhookId.getD "unknown")),
                ("orderId", .str payload.id)])).1 payload now
      = (auditCreate s "shopify" ("webhook_" ++ jsTemplateN
        (some "refunds/create")) "processing"
        (.info [("topic", .str (jsTemplateN (some "refunds/create"))),
                ("webhookId", .str (webhookId.getD "unknown")),
                ("orderId", .str payload.id)])).1 := by
    apply handleRefundWebhook_not_found _ _ _ oid ho
    rw [hs1] at *
    exact hmiss
  simp only [shopifyWebhookPOST, hv, hp, if_true]
  simp only [String.reduceEq, or_self, if_false, reduceIte, hdrop]
  simp only [auditUpdate, auditCreate, jsTemplateN, Option.getD_some]
  simp [List.getLast?_concat]

/-- The refund payload of the C9 witness: a refund of 20 against Shopify
order 555, which the warehouse does not hold. -/
def c9payload : RestPayload :=
  ⟨"555", none, none, 0, 0, none, none, none, none, [], none, [], [],
   some "555", some 20⟩

/-- C9, witness.  A validly signed `refunds/create` webhook for the unknown
order 555 against the empty warehouse: 200, audit row `success`, and no
order row change. -/
theorem refund_unknown_order_dropped_witness :
    (shopifyWebhookPOST id (fun k m => k ++ ":" ++ m) (some "sec")
        (some "refunds/create") "b" (some "sec:b") none
        (fun _ => .ok c9payload) 0 emptyWarehouse).1 = ⟨200⟩ ∧
    ((shopifyWebhookPOST id (fun k m => k ++ ":" ++ m) (some "sec")
        (some "refunds/create") "b" (some "sec:b") none
        (fun _ => .ok c9payload) 0 emptyWarehouse).2.audits.getLast?).map
        AuditRow.status = some "success" ∧
    (shopifyWebhookPOST id (fun k m => k ++ ":" ++ m) (some "sec")
        (some "refunds/create") "b" (some "sec:b") none
        (fun _ => .ok c9payload) 0 emptyWarehouse).2.orders
      = emptyWarehouse.orders := by
  have h := refund_unknown_order_dropped id (fun k m => k ++ ":" ++ m)
    (some "sec") "b" "sec:b" none (fun _ => .ok c9payload) 0 emptyWarehouse
    c9payload "555" (by decide) rfl rfl rfl
  exact ⟨h.1, h.2.2.2.2.2.2.1, h.2.1⟩

end JM

namespace JM

/-- `jsonSet` never removes a key. -/
theorem mem_jsonKeys_jsonSet (j : Json) (k : String) (v : JVal) :
    ∀ a ∈ jsonKeys j, a ∈ jsonKeys (jsonSet j k v) := by
  intro a ha
  unfold jsonSet
  by_cases h : j.any (fun p => p.1 = k)
  · rw [if_pos h]
    have : jsonKeys (j.map (fun p => if p.1 = k then (k, v) else p)) = jsonKeys j := by
      unfold jsonKeys
      rw [List.map_map]
      apply List.map_congr_left
      intro p _
      by_cases hp : p.1 = k
      · simp [hp]
      · simp [hp]
    rw [this]
    exact ha
  · rw [if_neg h]
    unfold jsonKeys at ha ⊢
    rw [List.map_append]
    exact List.mem_append_left _ ha

/-- `jsonMerge` never removes a key of the object merged into. -/
theorem mem_jsonKeys_jsonMerge (u : Json) :
    ∀ (old : Json), ∀ a ∈ jsonKeys old, a ∈ jsonKeys (jsonMerge old u) := by
  induction u with
  | nil => intro old a ha; exact ha
  | cons p ps ih =>
    intro old a ha
    show a ∈ jsonKeys (jsonMerge (jsonSet old p.1 p.2) ps)
    exact ih (jsonSet old p.1 p.2) a (mem_jsonKeys_jsonSet old p.1 p.2 a ha)

/-- Each element of a list survives `updateByKey` unchanged, unless it is
the row `find?` locates, in which case its image is in the result. -/
theorem mem_updateByKey {α : Type} (key : α → String) (k : String) (f : α → α)
    (l : List α) :
    ∀ x ∈ l, x ∈ updateByKey key k f l ∨
      (l.find? (fun r => key r = k) = some x ∧ f x ∈ updateByKey key k f l) := by
  induction l with
  | nil => intro x hx; cases hx
  | cons r rs ih =>
    intro x hx
    by_cases h : key r = k
    · have hfind : (r :: rs).find? (fun r => key r = k) = some r := by
        simp [List.find?_cons, h]
      have hupd : updateByKey key k f (r :: rs) = f r :: rs := by
        simp [updateByKey, h]
      rcases List.mem_cons.mp hx with hx | hx
      · subst hx
        right
        exact ⟨hfind, by rw [hupd]; exact List.mem_cons_self _ _⟩
      · left
        rw [hupd]
        exact List.mem_cons_of_mem _ hx
    · have hfind : (r :: rs).find? (fun r => key r = k)
          = rs.find? (fun r => key r = k) := by
        simp [List.find?_cons, h]
      have hupd : updateByKey key k f (r :: rs) = r :: updateByKey key k f rs := by
        simp [updateByKey, h]
      rcases List.mem_cons.mp hx with hx | hx
      · subst hx
        left
        rw [hupd]
        exact List.mem_cons_self _ _
      · rcases ih x hx with hm | ⟨hf, hm⟩
        · left
          rw [hupd]
          exact List.mem_cons_of_mem _ hm
        · right
          rw [hfind, hupd]
          exact ⟨hf, List.mem_cons_of_mem _ hm⟩

end JM

namespace JM

open JM.AnyRoad JM.AnyRoadWebhook

/-- Every element of a list keeps a same-key representative across
`upsertByKey`, when the update function preserves the key. -/
theorem mem_upsertByKey_preserved {α : Type} (key : α → String) (k : String)
    (f : α → α) (created : α) (l : List α) (hf : ∀ x, key (f x) = key x) :
    ∀ x ∈ l, ∃ y ∈ upsertByKey key k f created l, key y = key x := by
  intro x hx
  unfold upsertByKey
  by_cases h : l.any (fun r => key r = k)
  · rw [if_pos h]
    rcases mem_updateByKey key k f l x hx with hm | ⟨_, hm⟩
    · exact ⟨x, hm, rfl⟩
    · exact ⟨f x, hm, hf x⟩
  · rw [if_neg h]
    exact ⟨x, List.mem_append_left _ hx, rfl⟩

/-- The identity-bridge upsert of the booking handler does not touch the
events table. -/
theorem upsertAnyroadIdentity_events (s : Warehouse) (n : NormalizedEvent)
    (now : Int) : (upsertAnyroadIdentity s n now).events = s.events := by
  unfold upsertAnyroadIdentity
  split
  · split <;> rfl
  · rfl


/-- When rows are updated by key with a function that preserves ids and
merges into the found row's raw object, every row keeps a same-id
representative whose raw keys include all of its own. -/
theorem events_update_merge_mono (s : Warehouse) (eid : String) (ann : Json)
    (g : EventRow → EventRow) (hgid : ∀ x, (g x).id = x.id) (ex : EventRow)
    (hfind : s.events.find? (fun r => r.id = eid) = some ex)
    (hgraw : (g ex).rawJson = jsonMerge ex.rawJson ann) :
    ∀ r ∈ s.events, ∃ r2 ∈ updateByKey EventRow.id eid g s.events,
      r2.id = r.id ∧ ∀ a ∈ jsonKeys r.rawJson, a ∈ jsonKeys r2.rawJson := by
  intro r hr
  rcases mem_updateByKey EventRow.id eid g s.events r hr with hm | ⟨hf, hm⟩
  · exact ⟨r, hm, rfl, fun a ha => ha⟩
  · have hex : r = ex := by
      rw [hfind] at hf
      exact (Option.some.inj hf).symm
    subst hex
    refine ⟨g r, hm, hgid r, ?_⟩
    intro a ha
    rw [hgraw]
    exact mem_jsonKeys_jsonMerge ann r.rawJson a ha

/-- C7, amended.  No booking webhook ever deletes an event row: every
pre-existing row keeps a row with its id.  The cancellation and completion
handlers moreover only merge into the stored `raw` object — every key it
contained is still present afterwards.  The booking create/update handler,
by contrast, is only guaranteed to keep the row: its `update` branch
replaces `rawJson` with the freshly normalized payload (see the
counterexample). -/
theorem event_updates_amended (sha256hex : String → String) (s : Warehouse)
    (b : AnyRoadBooking) (now : Int) :
    (∀ r ∈ s.events, ∃ r2 ∈ (handleBookingCancellation s b now).events,
        r2.id = r.id ∧ ∀ a ∈ jsonKeys r.rawJson, a ∈ jsonKeys r2.rawJson) ∧
    (∀ r ∈ s.events, ∃ r2 ∈ (handleBookingCompletion sha256hex s b now).events,
        r2.id = r.id ∧ ∀ a ∈ jsonKeys r.rawJson, a ∈ jsonKeys r2.rawJson) ∧
    (∀ r ∈ s.events, ∃ r2 ∈ (handleBookingWebhook sha256hex s b now).events,
        r2.id = r.id) := by
  refine ⟨?_, ?_, ?_⟩
  · -- cancellation
    intro r hr
    simp only [handleBookingCancellation]
    rcases hfind : s.events.find? (fun x => x.id = "anyroad_booking_" ++ b.id)
      with _ | ex
    · simp only [hfind]
      exact ⟨r, hr, rfl, fun a ha => ha⟩
    · simp only [hfind]
      refine events_update_merge_mono s _
        ([("cancelled", .bool true), ("cancelledAt", .int now)] ++
          (match b.cancellation_reason with
           | some reason => [("cancellationReason", JVal.str reason)]
           | none => [])) _ ?_ ex hfind ?_ r hr
      · intro x
        rfl
      · rfl
  · -- completion
    intro r hr
    simp only [handleBookingCompletion]
    rcases hfind : s.events.find? (fun x => x.id = "anyroad_booking_" ++ b.id)
      with _ | ex
    · -- fallback creation: no row matches, so the upsert appends
      simp only [hfind]
      have hid : (normalizeBooking sha256hex b).externalId
          = "anyroad_booking_" ++ b.id := rfl
      have hany : s.events.any
          (fun x => x.id = (normalizeBooking sha256hex b).externalId)
          = false := by
        rw [hid, List.any_eq_false]
        intro x hx
        simpa using List.find?_eq_none.mp hfind x hx
      simp only [handleBookingWebhook, upsertAnyroadIdentity_events,
        upsertByKey, hany]
      simp only [Bool.false_eq_true, if_false]
      exact ⟨r, List.mem_append_left _ hr, rfl, fun a ha => ha⟩
    · simp only [hfind]
      refine events_update_merge_mono s _
        ([("completed", .bool true), ("completedAt", .int now),
          ("actualAttendees", .int (Int.ofNat
            (match b.actual_attendance with
             | some a => if a = 0 then b.guests_count else a
             | none => b.guests_count)))]) _ ?_ ex hfind ?_ r hr
      · intro x
        rfl
      · rfl
  · -- booking create/update: rows are never deleted
    intro r hr
    simp only [handleBookingWebhook, upsertAnyroadIdentity_events]
    refine mem_upsertByKey_preserved EventRow.id
      (normalizeBooking sha256hex b).externalId _ _ s.events ?_ r hr
    intro x
    rfl

end JM

namespace JM

open JM.AnyRoad JM.AnyRoadWebhook

/-- An event row carrying a prior `cancelled` annotation in its raw
object. -/
def c7event : EventRow :=
  ⟨"anyroad_booking_b1", "tour", 0, none, 2, 0, 0, [("cancelled", .bool true)]⟩

/-- A warehouse holding only that event. -/
def c7state : Warehouse := ⟨[], [], [], [c7event], [], []⟩

/-- A later `booking.updated` payload for the same booking. -/
def c7booking : AnyRoadBooking :=
  ⟨"b1", none, 0, 0, none, "confirmed", 2, 0, none, none, none, none⟩

/-- C7, counterexample.  The stored raw object contains the `cancelled`
annotation; after a booking update webhook for the same booking the stored
raw object is exactly the freshly normalized payload, whose key set no
longer contains `cancelled`: the update replaced `raw` instead of merging
into it. -/
theorem bookingUpdate_replaces_raw_cex :
    "cancelled" ∈ jsonKeys c7event.rawJson ∧
    (handleBookingWebhook id c7state c7booking 9).events.map
        (fun r => jsonKeys r.rawJson)
      = [jsonKeys (encodeBooking c7booking)] ∧
    "cancelled" ∉ jsonKeys (encodeBooking c7booking) := by
  decide

end JM

namespace JM

open JM.Shopify JM.Reconcile

/-- C5, amended, part of the statement uses these: a source day of 10
orders of 100.00 each (1000.00 in total). -/
def c5order (k : Nat) : ShopifyOrder :=
  ⟨"gid://shopify/Order/" ++ toString k, "", 1, 1, 100, 100, 0, 0, 0,
   none, [], []⟩

/-- The warehouse holding only the first 9 of those orders, at 100.00 net
each. -/
def c5row (k : Nat) : OrderRow :=
  ⟨"shopify_order_" ++ toString k, "shopify", some "online-shopify", 1, 1,
   none, 100, 100, 0, 0, 0, [], []⟩

/-- The 10 source orders. -/
def c5src : List ShopifyOrder :=
  [c5order 0, c5order 1, c5order 2, c5order 3, c5order 4, c5order 5,
   c5order 6, c5order 7, c5order 8, c5order 9]

/-- The warehouse seeded with 9 of them. -/
def c5wh : Warehouse :=
  ⟨[c5row 0, c5row 1, c5row 2, c5row 3, c5row 4, c5row 5, c5row 6, c5row 7,
    c5row 8], [], [], [], [], []⟩

/-- C5, counterexample.  With 10 source orders totaling 1000.00 and 9 of
them (900.00) in the warehouse, `reconcileShopify` reports `mismatch` and
`countDiff = -1` as the claim says, but `revenueDiff` is the warehouse
total minus the source total, i.e. -100.00 — the negation of the missing
order's net amount of 100.00, not that amount itself. -/
theorem reconcileShopify_revenueDiff_sign_cex :
    (reconcileShopify (.ok c5src) c5wh 0 7).status = "mismatch" ∧
    (reconcileShopify (.ok c5src) c5wh 0 7).countDiff = -1 ∧
    (c5order 9).totalPrice - (c5order 9).totalRefunded = 100 ∧
    (reconcileShopify (.ok c5src) c5wh 0 7).revenueDiff = -100 ∧
    (reconcileShopify (.ok c5src) c5wh 0 7).revenueDiff
      ≠ (c5order 9).totalPrice - (c5order 9).totalRefunded := by
  have hrev : (reconcileShopify (.ok c5src) c5wh 0 7).revenueDiff = -100 := by
    simp only [reconcileShopify, c5src, c5wh, c5row, c5order]
    norm_num
  refine ⟨by decide, by decide, by norm_num [c5order], hrev, ?_⟩
  rw [hrev]
  norm_num [c5order]

/-- C5, amended.  `reconcileShopify` returns status `match` exactly when
the count difference is zero and the absolute revenue difference is under
the fixed absolute epsilon 1; a failed source fetch yields the distinct
status `error`; and in the 10-versus-9 scenario the result is `mismatch`
with `countDiff = -1` and `revenueDiff` equal to the negation of the
missing order's net amount. -/
theorem reconcileShopify_status_amended :
    (∀ (fetchedOrders : List ShopifyOrder) (s : Warehouse) (startD endD : Int),
      (reconcileShopify (.ok fetchedOrders) s startD endD).status = "match" ↔
        ((reconcileShopify (.ok fetchedOrders) s startD endD).countDiff = 0 ∧
         |(reconcileShopify (.ok fetchedOrders) s startD endD).revenueDiff| < 1)) ∧
    (∀ (msg : String) (s : Warehouse) (startD endD : Int),
      (reconcileShopify (.error msg) s startD endD).status = "error") ∧
    ((reconcileShopify (.ok c5src) c5wh 0 7).status = "mismatch" ∧
     (reconcileShopify (.ok c5src) c5wh 0 7).countDiff = -1 ∧
     (reconcileShopify (.ok c5src) c5wh 0 7).revenueDiff
       = -((c5order 9).totalPrice - (c5order 9).totalRefunded)) := by
  refine ⟨?_, fun msg s startD endD => rfl, by decide, by decide, ?_⟩
  · intro fetchedOrders s startD endD
    simp only [reconcileShopify]
    by_cases hc :
        ((s.orders.filter (fun r => r.channelId = "shopify" ∧
            startD ≤ r.createdAt ∧ r.createdAt ≤ endD)).length : Int)
          - (fetchedOrders.length : Int) = 0 ∧
        |(s.orders.filter (fun r => r.channelId = "shopify" ∧
            startD ≤ r.createdAt ∧ r.createdAt ≤ endD)).foldl
            (fun sum r => sum + r.netTotal) 0
          - fetchedOrders.foldl
            (fun sum order => sum + (order.totalPrice - order.totalRefunded)) 0| < 1
    · rw [if_pos hc]
      exact ⟨fun _ => hc, fun _ => rfl⟩
    · rw [if_neg hc]
      exact ⟨fun h => absurd h (by decide), fun h => absurd h hc⟩
  · have hrev : (reconcileShopify (.ok c5src) c5wh 0 7).revenueDiff = -100 := by
      simp only [reconcileShopify, c5src, c5wh, c5row, c5order]
      norm_num
    rw [hrev]
    norm_num [c5order]

end JM

namespace JM

open JM.Shopify JM.Backfill

/-- A key-preserving update leaves the key membership test unchanged. -/
theorem any_updateByKey {α : Type} (key : α → String) (k : String) (f : α → α)
    (l : List α) (hf : ∀ x, key (f x) = key x) :
    (updateByKey key k f l).any (fun r => key r = k)
      = l.any (fun r => key r = k) := by
  induction l with
  | nil => rfl
  | cons r rs ih =>
    by_cases h : key r = k
    · simp [updateByKey, h, hf]
    · simp [updateByKey, h, ih]

/-- Updating by key skips over a prefix holding no match. -/
theorem updateByKey_append_no_match {α : Type} (key : α → String) (k : String)
    (f : α → α) (l m : List α) (h : l.any (fun r => key r = k) = false) :
    updateByKey key k f (l ++ m) = l ++ updateByKey key k f m := by
  induction l with
  | nil => rfl
  | cons r rs ih =>
    have hr : ¬(key r = k) := by
      intro hk
      simp [hk] at h
    have hrs : rs.any (fun r => key r = k) = false := by
      simp at h
      rw [List.any_eq_false]
      intro x hx
      simpa using h.2 x hx
    simp only [List.cons_append, updateByKey, if_neg hr, List.append_eq, ih hrs]

/-- Re-updating after a first update erases nothing observable once a
clearing function collapses the two updates. -/
theorem map_clear_updateByKey_twice {α : Type} (key : α → String) (k : String)
    (clear u1 u2 : α → α) (l : List α)
    (h1 : ∀ x, key (u1 x) = key x)
    (h4 : ∀ x, clear (u2 (u1 x)) = clear (u1 x)) :
    (updateByKey key k u2 (updateByKey key k u1 l)).map clear
      = (updateByKey key k u1 l).map clear := by
  induction l with
  | nil => rfl
  | cons r rs ih =>
    by_cases h : key r = k
    · have h2 : key (u1 r) = k := by rw [h1]; exact h
      simp only [updateByKey, if_pos h, if_pos h2, List.map_cons, h4]
    · have h2 : ¬(key r = k) := h
      simp only [updateByKey, if_neg h2, List.map_cons, ih]

/-- Upserting the same logical record twice yields, after clearing, the
same rows as upserting it once. -/
theorem map_clear_upsert_upsert {α : Type} (key : α → String) (k : String)
    (clear u1 u2 : α → α) (n1 n2 : α) (l : List α)
    (h1 : ∀ x, key (u1 x) = key x)
    (h3 : key n1 = k)
    (h4 : ∀ x, clear (u2 (u1 x)) = clear (u1 x))
    (h5 : clear (u2 n1) = clear n1) :
    (upsertByKey key k u2 n2 (upsertByKey key k u1 n1 l)).map clear
      = (upsertByKey key k u1 n1 l).map clear := by
  unfold upsertByKey
  by_cases hl : l.any (fun r => key r = k)
  · rw [if_pos hl]
    rw [if_pos (by rw [any_updateByKey key k u1 l h1]; exact hl)]
    exact map_clear_updateByKey_twice key k clear u1 u2 l h1 h4
  · rw [if_neg hl]
    have hl2 : l.any (fun r => key r = k) = false := by
      exact Bool.not_eq_true _ ▸ eq_false_of_ne_true (by simpa using hl)
    have hany : (l ++ [n1]).any (fun r => key r = k) = true := by
      simp [List.any_append, h3]
    rw [if_pos hany]
    rw [updateByKey_append_no_match key k u2 l [n1] hl2]
    have hone : updateByKey key k u2 [n1] = [u2 n1] := by
      simp [updateByKey, h3]
    rw [hone, List.map_append, List.map_append]
    simp [h5]

/-- An order row with its bookkeeping timestamp cleared. -/
def OrderRow.clearTs (r : OrderRow) : OrderRow := { r with updatedAt := 0 }

/-- An identity row with its bookkeeping timestamp cleared. -/
def IdentityRow.clearTs (r : IdentityRow) : IdentityRow := { r with updatedAt := 0 }

/-- The identity rows after two upserts of the same order agree with one
upsert, up to the timestamp. -/
theorem identityRows_upsert_twice (o : NormalizedOrder) (t1 t2 : Int)
    (l : List IdentityRow) :
    (upsertShopifyIdentityRows o t2 (upsertShopifyIdentityRows o t1 l)).map
        IdentityRow.clearTs
      = (upsertShopifyIdentityRows o t1 l).map IdentityRow.clearTs := by
  rcases hci : o.customerIdentity with _ | ci
  · simp [upsertShopifyIdentityRows, hci]
  · rcases hch : o.customerHash with _ | ch
    · simp [upsertShopifyIdentityRows, hci, hch]
    · by_cases hch0 : ch = ""
      · simp [upsertShopifyIdentityRows, hci, hch, hch0]
      · simp only [upsertShopifyIdentityRows, hci, hch, if_neg hch0]
        exact map_clear_upsert_upsert IdentityRow.customerHash ch
          IdentityRow.clearTs _ _ _ _ l (fun x => rfl) rfl (fun x => rfl) rfl

/-- C1, amended.  Calling the backfill `upsertOrder` twice with the same
normalized order leaves the warehouse in the state of a single call, up to
the `updatedAt` bookkeeping timestamps: the order row count, every order
field except `updatedAt`, the entire line-row set, the identity rows up to
their timestamp, and the remaining tables are identical.  (The `updatedAt`
column itself differs: the create path stores the source order's timestamp
while the update path stores the wall clock, see the counterexample.) -/
theorem upsertOrder_twice_eq_once_mod_updatedAt (s : Warehouse)
    (o : NormalizedOrder) (t1 t2 : Int) :
    ((upsertOrder (upsertOrder s o t1) o t2).orders.map OrderRow.clearTs
       = (upsertOrder s o t1).orders.map OrderRow.clearTs) ∧
    ((upsertOrder (upsertOrder s o t1) o t2).orders.length
       = (upsertOrder s o t1).orders.length) ∧
    ((upsertOrder (upsertOrder s o t1) o t2).lines
       = (upsertOrder s o t1).lines) ∧
    ((upsertOrder (upsertOrder s o t1) o t2).identities.map IdentityRow.clearTs
       = (upsertOrder s o t1).identities.map IdentityRow.clearTs) ∧
    ((upsertOrder (upsertOrder s o t1) o t2).events
       = (upsertOrder s o t1).events) ∧
    ((upsertOrder (upsertOrder s o t1) o t2).audits
       = (upsertOrder s o t1).audits) ∧
    ((upsertOrder (upsertOrder s o t1) o t2).dimLocations
       = (upsertOrder s o t1).dimLocations) := by
  have horders :
      (upsertOrder (upsertOrder s o t1) o t2).orders.map OrderRow.clearTs
        = (upsertOrder s o t1).orders.map OrderRow.clearTs := by
    show (upsertByKey OrderRow.id o.externalId (orderUpdateRow o t2)
        (orderCreateRow o)
        (upsertByKey OrderRow.id o.externalId (orderUpdateRow o t1)
          (orderCreateRow o) s.orders)).map OrderRow.clearTs
      = (upsertByKey OrderRow.id o.externalId (orderUpdateRow o t1)
          (orderCreateRow o) s.orders).map OrderRow.clearTs
    exact map_clear_upsert_upsert OrderRow.id o.externalId OrderRow.clearTs
      (orderUpdateRow o t1) (orderUpdateRow o t2) (orderCreateRow o)
      (orderCreateRow o) s.orders (fun x => rfl) rfl (fun x => rfl) rfl
  have hlen : (upsertOrder (upsertOrder s o t1) o t2).orders.length
      = (upsertOrder s o t1).orders.length := by
    have := congrArg List.length horders
    simpa using this
  have hlines : (upsertOrder (upsertOrder s o t1) o t2).lines
      = (upsertOrder s o t1).lines := by
    show ((((upsertOrder s o t1).lines).filter
          (fun l => l.orderId ≠ o.externalId)) ++
        o.lineItems.map (lineCreateRow o.externalId))
      = (upsertOrder s o t1).lines
    show ((((s.lines.filter (fun l => l.orderId ≠ o.externalId)) ++
          o.lineItems.map (lineCreateRow o.externalId)).filter
          (fun l => l.orderId ≠ o.externalId)) ++
        o.lineItems.map (lineCreateRow o.externalId))
      = (s.lines.filter (fun l => l.orderId ≠ o.externalId)) ++
          o.lineItems.map (lineCreateRow o.externalId)
    rw [List.filter_append]
    have hmapped : (o.lineItems.map (lineCreateRow o.externalId)).filter
        (fun l => l.orderId ≠ o.externalId) = [] := by
      rw [List.filter_eq_nil_iff]
      intro a ha
      rcases List.mem_map.mp ha with ⟨item, _, hitem⟩
      subst hitem
      simp [lineCreateRow]
    rw [hmapped, List.append_nil, List.filter_filter]
    congr 1
    apply List.filter_congr
    intro x _
    simp
  have hident : (upsertOrder (upsertOrder s o t1) o t2).identities.map
      IdentityRow.clearTs
      = (upsertOrder s o t1).identities.map IdentityRow.clearTs := by
    show (upsertShopifyIdentityRows o t2
        (upsertShopifyIdentityRows o t1 s.identities)).map IdentityRow.clearTs
      = (upsertShopifyIdentityRows o t1 s.identities).map IdentityRow.clearTs
    exact identityRows_upsert_twice o t1 t2 s.identities
  exact ⟨horders, hlen, hlines, hident, rfl, rfl, rfl⟩

end JM

namespace JM

open JM.Shopify JM.Backfill

/-- A canonical order whose source `updatedAt` is 5, upserted at wall-clock
time 9. -/
def c1order : NormalizedOrder :=
  ⟨"shopify_order_1", "shopify", some "online-shopify", 1, 5, none,
   100, 100, 0, 0, 0, [], [],
   [⟨"shopify_lineitem_1", none, "Bottle", none, 1, 100⟩], none⟩

/-- C1, counterexample.  After one `upsertOrder` call the stored order row
carries `updatedAt = 5` (the source order's timestamp, from the create
branch); after a second identical call it carries `updatedAt = 9` (the
wall clock, from the update branch): the two warehouse states do not have
the same order field values, so the double call does not leave exactly the
single-call state. -/
theorem upsertOrder_twice_changes_updatedAt_cex :
    (upsertOrder (upsertOrder emptyWarehouse c1order 9) c1order 9).orders.map
        (fun r => r.updatedAt) = [9] ∧
    (upsertOrder emptyWarehouse c1order 9).orders.map
        (fun r => r.updatedAt) = [5] ∧
    (upsertOrder (upsertOrder emptyWarehouse c1order 9) c1order 9).orders
      ≠ (upsertOrder emptyWarehouse c1order 9).orders := by
  have hA : (upsertOrder (upsertOrder emptyWarehouse c1order 9) c1order
      9).orders.map (fun r => r.updatedAt) = [9] := by decide
  have hB : (upsertOrder emptyWarehouse c1order 9).orders.map
      (fun r => r.updatedAt) = [5] := by decide
  refine ⟨hA, hB, ?_⟩
  intro h
  rw [h, hB] at hA
  exact absurd hA (by decide)

end JM

namespace JM

open JM.Shopify JM.Square JM.Backfill JM.Resync JM.ShopifyWebhook

/-- Each member of an updated list is an old row or the image of the row
that `find?` locates. -/
theorem mem_of_updateByKey {α : Type} (key : α → String) (k : String)
    (f : α → α) (l : List α) :
    ∀ x ∈ updateByKey key k f l, x ∈ l ∨
      (∃ ex, l.find? (fun r => key r = k) = some ex ∧ x = f ex) := by
  induction l with
  | nil => intro x hx; cases hx
  | cons r rs ih =>
    by_cases h : key r = k
    · intro x hx
      rw [show updateByKey key k f (r :: rs) = f r :: rs by
        simp [updateByKey, h]] at hx
      rcases List.mem_cons.mp hx with hx | hx
      · exact Or.inr ⟨r, by simp [List.find?_cons, h], hx⟩
      · exact Or.inl (List.mem_cons_of_mem _ hx)
    · intro x hx
      rw [show updateByKey key k f (r :: rs) = r :: updateByKey key k f rs by
        simp [updateByKey, h]] at hx
      rcases List.mem_cons.mp hx with hx | hx
      · exact Or.inl (hx ▸ List.mem_cons_self _ _)
      · rcases ih x hx with hm | ⟨ex, hfind, hx⟩
        · exact Or.inl (List.mem_cons_of_mem _ hm)
        · exact Or.inr ⟨ex, by simp [List.find?_cons, h, hfind], hx⟩

/-- Each member of an upserted list is an old row, the image of an old
row, or the freshly created row. -/
theorem mem_of_upsertByKey {α : Type} (key : α → String) (k : String)
    (f : α → α) (created : α) (l : List α) :
    ∀ x ∈ upsertByKey key k f created l, x ∈ l ∨
      (∃ ex ∈ l, x = f ex) ∨ x = created := by
  intro x hx
  unfold upsertByKey at hx
  by_cases h : l.any (fun r => key r = k)
  · rw [if_pos h] at hx
    rcases mem_of_updateByKey key k f l x hx with hm | ⟨ex, hfind, hfx⟩
    · exact Or.inl hm
    · exact Or.inr (Or.inl ⟨ex, List.mem_of_find?_eq_some hfind, hfx⟩)
  · rw [if_neg h] at hx
    rcases List.mem_append.mp hx with hm | hm
    · exact Or.inl hm
    · exact Or.inr (Or.inr (List.mem_singleton.mp hm))

/-- The money invariant of the data model: every persisted order satisfies
`netTotal = grossTotal - refundsTotal`. -/
def moneyInvariant (s : Warehouse) : Prop :=
  ∀ r ∈ s.orders, r.netTotal = r.grossTotal - r.refundsTotal

/-- One ingestion unit of work touching orders: a Shopify order ingest (the
order webhook, the resync and the backfill all normalize and upsert the
same way), a Square order ingest (resync and order webhook), or a Shopify
refund webhook. -/
inductive IngestOp where
  | shopifyIngest : ShopifyOrder → Int → IngestOp
  | squareIngest : SquareOrder → Option PayAgg → Int → IngestOp
  | refundWebhook : RestPayload → Int → IngestOp

/-- Application of one ingestion unit to the warehouse. -/
def applyIngestOp (sha256hex : String → String) (s : Warehouse) :
    IngestOp → Warehouse
  | .shopifyIngest raw now =>
    upsertOrder s (JM.Shopify.normalizeOrder sha256hex raw) now
  | .squareIngest raw pd now =>
    resyncUpsertSquareOrder s (JM.Square.normalizeOrder sha256hex raw pd) now
  | .refundWebhook p now => handleRefundWebhook s p now

/-- A completed ingestion run: a sequence of ingestion units. -/
def applyIngestOps (sha256hex : String → String) (ops : List IngestOp)
    (s : Warehouse) : Warehouse :=
  ops.foldl (applyIngestOp sha256hex) s

/-- The backfill upsert preserves the money invariant whenever its input
order satisfies it. -/
theorem moneyInvariant_upsertOrder (s : Warehouse) (o : NormalizedOrder)
    (now : Int) (hs : moneyInvariant s)
    (ho : o.netTotal = o.grossTotal - o.refundsTotal) :
    moneyInvariant (upsertOrder s o now) := by
  intro r hr
  have hrr : r ∈ upsertByKey OrderRow.id o.externalId (orderUpdateRow o now)
      (orderCreateRow o) s.orders := hr
  rcases mem_of_upsertByKey _ _ _ _ _ r hrr with hm | ⟨ex, _, hx⟩ | hx
  · exact hs r hm
  · subst hx
    exact ho
  · subst hx
    exact ho

/-- The Square resync upsert preserves the money invariant likewise. -/
theorem moneyInvariant_resyncUpsert (s : Warehouse) (o : NormalizedOrder)
    (now : Int) (hs : moneyInvariant s)
    (ho : o.netTotal = o.grossTotal - o.refundsTotal) :
    moneyInvariant (resyncUpsertSquareOrder s o now) := by
  intro r hr
  have hrr : r ∈ upsertByKey OrderRow.id o.externalId (orderUpdateRow o now)
      (orderCreateRow o) s.orders := hr
  rcases mem_of_upsertByKey _ _ _ _ _ r hrr with hm | ⟨ex, _, hx⟩ | hx
  · exact hs r hm
  · subst hx
    exact ho
  · subst hx
    exact ho

/-- The refund webhook update re-establishes the money invariant on the
row it touches: the new net total is recomputed as the gross total minus
the new refunds total. -/
theorem moneyInvariant_refund (s : Warehouse) (p : RestPayload) (now : Int)
    (hs : moneyInvariant s) :
    moneyInvariant (handleRefundWebhook s p now) := by
  intro r hr
  simp only [handleRefundWebhook] at hr
  rcases hfind : s.orders.find?
      (fun x => x.id = "shopify_order_" ++ jsTemplate p.order_id)
    with _ | ex
  · rw [hfind] at hr
    exact hs r hr
  · rw [hfind] at hr
    have hrr : r ∈ updateByKey OrderRow.id
        ("shopify_order_" ++ jsTemplate p.order_id)
        (fun x => { x with
          refundsTotal := ex.refundsTotal + p.amount.getD 0,
          netTotal := ex.grossTotal - (ex.refundsTotal + p.amount.getD 0),
          updatedAt := now,
          rawJson := jsonMerge ex.rawJson
            [("lastRefund_order_id", .str (jsTemplate p.order_id)),
             ("lastRefund_amount", .num (p.amount.getD 0)),
             ("refundedAt", .int now)] })
        s.orders := hr
    rcases mem_of_updateByKey _ _ _ _ r hrr with hm | ⟨ex2, hfind2, hx⟩
    · exact hs r hm
    · have hex : ex2 = ex := Option.some.inj (hfind2.symm.trans hfind)
      subst hx
      subst hex
      show ex2.grossTotal - (ex2.refundsTotal + p.amount.getD 0)
        = ex2.grossTotal - (ex2.refundsTotal + p.amount.getD 0)
      rfl

/-- The invariant is preserved along any sequence of ingestion units. -/
theorem moneyInvariant_applyIngestOps (sha256hex : String → String)
    (ops : List IngestOp) :
    ∀ s : Warehouse, moneyInvariant s →
      moneyInvariant (applyIngestOps sha256hex ops s) := by
  induction ops with
  | nil => intro s hs; exact hs
  | cons op rest ih =>
    intro s hs
    refine ih (applyIngestOp sha256hex s op) ?_
    cases op with
    | shopifyIngest raw now =>
      exact moneyInvariant_upsertOrder s _ now hs rfl
    | squareIngest raw pd now =>
      exact moneyInvariant_resyncUpsert s _ now hs rfl
    | refundWebhook p now =>
      exact moneyInvariant_refund s p now hs

/-- C2.  After any completed sequence of ingestions and updates — order
normalizations upserted by webhook, backfill or resync (Shopify and
Square), and refund webhooks — every persisted order satisfies
`netTotal = grossTotal - refundsTotal` to within 0.01 (in fact exactly, in
the exact-arithmetic model). -/
theorem netTotal_invariant_all_ingests (sha256hex : String → String)
    (ops : List IngestOp) :
    ∀ r ∈ (applyIngestOps sha256hex ops emptyWarehouse).orders,
      r.netTotal = r.grossTotal - r.refundsTotal ∧
      |r.netTotal - (r.grossTotal - r.refundsTotal)| ≤ 1/100 := by
  intro r hr
  have h := moneyInvariant_applyIngestOps sha256hex ops emptyWarehouse
    (fun r hr => absurd hr (List.not_mem_nil r)) r hr
  refine ⟨h, ?_⟩
  rw [h]
  simp

end JM

namespace JM

open JM.Shopify JM.Backfill

/-- A source day holding 51 tiny orders, all created on day 1 — two pages
at the fetch page size of 50. -/
def c6src : List ShopifyOrder :=
  (List.range 51).map (fun i =>
    { id := "o" ++ toString i, name := "", createdAt := 1, updatedAt := 0,
      totalPrice := 0, currentSubtotalPrice := 0, totalDiscounts := 0,
      totalTax := 0, totalRefunded := 0, customer := none, lineItems := [],
      transactions := [] })

set_option maxRecDepth 100000 in
/-- C6.  Backfilling the 7-day window ending on day 7 over `c6src`
uninterrupted persists all 51 orders.  If the first run is killed right
after page 1's checkpoint (50 orders persisted, checkpoint
`(0, 7, cursor 50, 50)` recorded after the page's records), re-invoking
the orchestrator resumes at the checkpoint's `endDate` — day 7 — so the
window loop exits immediately: the 51st order is never fetched and the
final warehouse (50 orders, missing `shopify_unknown_o50`) differs from
the uninterrupted run's. -/
theorem backfill_resume_loses_window_remainder :
    (backfillShopify id c6src 7 7 emptyWarehouse).orders.length = 51 ∧
    ((processDateWindowAborted id c6src 7 0 7 none emptyWarehouse 1).audits.map
        (fun a => (a.auditType, a.status)))
      = [("backfill_checkpoint", "success")] ∧
    getLastCheckpoint
        (processDateWindowAborted id c6src 7 0 7 none emptyWarehouse 1)
      = some ⟨0, 7, some 50, 50⟩ ∧
    (backfillShopify id c6src 7 7
        (processDateWindowAborted id c6src 7 0 7 none emptyWarehouse 1)).orders.length
      = 50 ∧
    ((backfillShopify id c6src 7 7
        (processDateWindowAborted id c6src 7 0 7 none emptyWarehouse 1)).orders.any
        (fun r => r.id = "shopify_unknown_o50")) = false ∧
    ((backfillShopify id c6src 7 7 emptyWarehouse).orders.any
        (fun r => r.id = "shopify_unknown_o50")) = true := by
  refine ⟨?_, by decide, by decide, ?_, ?_, ?_⟩
  · decide
  · decide
  · decide
  · decide

end JM

namespace JM

open JM.Shopify JM.Backfill JM.AnyRoadWebhook

/-- A concrete Shopify order for the C2 witness: gross 100, refunded 30. -/
def c2raw : ShopifyOrder :=
  ⟨"gid://shopify/Order/7", "#7", 1, 1, 100, 100, 0, 0, 30, none, [], []⟩

/-- C2, witness: ingesting `c2raw` into the empty warehouse yields a row
satisfying the invariant (net 70 = gross 100 - refunds 30). -/
theorem netTotal_invariant_all_ingests_witness :
    (orderCreateRow (JM.Shopify.normalizeOrder id c2raw)).netTotal
        = (orderCreateRow (JM.Shopify.normalizeOrder id c2raw)).grossTotal
          - (orderCreateRow (JM.Shopify.normalizeOrder id c2raw)).refundsTotal ∧
    |(orderCreateRow (JM.Shopify.normalizeOrder id c2raw)).netTotal
        - ((orderCreateRow (JM.Shopify.normalizeOrder id c2raw)).grossTotal
          - (orderCreateRow (JM.Shopify.normalizeOrder id c2raw)).refundsTotal)|
      ≤ 1/100 := by
  exact netTotal_invariant_all_ingests id [.shopifyIngest c2raw 0]
    (orderCreateRow (JM.Shopify.normalizeOrder id c2raw))
    (List.mem_cons_self _ _)

/-- C7, witness: on the concrete cancelled event, the cancellation handler
keeps a row with the same id whose raw keys include every prior key. -/
theorem event_updates_amended_witness :
    ∃ r2 ∈ (handleBookingCancellation c7state c7booking 9).events,
      r2.id = c7event.id ∧
      ∀ a ∈ jsonKeys c7event.rawJson, a ∈ jsonKeys r2.rawJson := by
  exact (event_updates_amended id c7state c7booking 9).1 c7event
    (List.mem_cons_self _ _)

end JM
